import Mathlib

/-!
Verification development for the shadcn-scaffolder resumable step orchestrator
(CBDB-Code/UI_Shadcn, `shadcn-scaffolder/`).

Shallow embedding notes.
The JavaScript sources are embedded as executable Lean definitions:

* `lib/state.js` (checkpoint store) — `createInitialState`, `saveState`
  (modelled at micro-operation granularity to reason about the
  write-temp-then-rename sequence), `updateStep`, `removeState`.
* `lib/executor.js` — `installComponents` (batch-then-individual installer
  with a shared time budget), `verifyProject`, `cleanup`.  External
  subprocesses are opaque: an environment record supplies, for each spawn,
  the observed outcome (exit code / timeout / launch error) and its
  duration; only attempts actually made consume time.
* `lib/validator.js` — `validateInputs`, with the filesystem probes
  (existence / directory / writability / state-file contents) supplied by
  an environment record.
* `index.js` (`main`) — the step pipeline, embedded as a function from the
  step-outcome environment and the starting state to an `Outcome` holding
  the process exit code, the final in-memory state, and a trace of the
  observable side effects (subprocess executions, checkpoint persists with
  the state snapshot persisted, project-directory cleanup, checkpoint
  removal).  The SIGINT/SIGTERM handler of `registerSignalHandlers` is
  embedded separately as `handleSignal`.

Timestamps (`startedAt`/`updatedAt`) are modelled only in the checkpoint
store micro-model, where the spec claim mentions them; no pipeline-level
claim depends on their values.
-/

/-- Status of one pipeline step, as stored in `.scaffolder-state.json`. -/
inductive Status
  | pending
  | running
  | done
  | failed
deriving DecidableEq, Repr

/-- The five fixed step keys of `state.steps` (index.js / state.js). -/
inductive StepName
  | viteCreate
  | npmInstall
  | shadcnInit
  | componentInstall
  | verification
deriving DecidableEq, Repr

/-- The `steps` object of the persisted state: one status per fixed key. -/
structure Steps where
  viteCreate : Status
  npmInstall : Status
  shadcnInit : Status
  componentInstall : Status
  verification : Status
deriving DecidableEq, Repr

/-- Read one step status by key. -/
def Steps.get (m : Steps) : StepName → Status
  | .viteCreate => m.viteCreate
  | .npmInstall => m.npmInstall
  | .shadcnInit => m.shadcnInit
  | .componentInstall => m.componentInstall
  | .verification => m.verification

/-- Write one step status by key (`state.steps[stepName] = status`). -/
def Steps.set (m : Steps) : StepName → Status → Steps
  | .viteCreate, st => { m with viteCreate := st }
  | .npmInstall, st => { m with npmInstall := st }
  | .shadcnInit, st => { m with shadcnInit := st }
  | .componentInstall, st => { m with componentInstall := st }
  | .verification, st => { m with verification := st }

/-- The persisted ScaffoldState aggregate (state.js `createInitialState`).
`version`, `projectPath` and the two timestamps are carried where a claim
needs them; `updatedAt` lives in `TimedState` below. -/
structure ScaffoldState where
  projectName : String
  template : String
  components : List String
  freshCreation : Bool
  steps : Steps
  installedComponents : List String
  failedComponents : List String
  error : Option String
deriving DecidableEq, Repr

/-- state.js `createInitialState`: all steps pending, fresh creation. -/
def createInitialState (projectName template : String)
    (components : List String) : ScaffoldState :=
  { projectName := projectName
    template := template
    components := components
    freshCreation := true
    steps := ⟨.pending, .pending, .pending, .pending, .pending⟩
    installedComponents := []
    failedComponents := []
    error := none }

/-- All five steps are `done` (index.js line 107,
`Object.values(state.steps).every(s => s === done)`). -/
def allStepsDone (s : ScaffoldState) : Bool :=
  s.steps.viteCreate = Status.done ∧ s.steps.npmInstall = Status.done ∧
    s.steps.shadcnInit = Status.done ∧ s.steps.componentInstall = Status.done ∧
    s.steps.verification = Status.done

/-! ## Checkpoint store micro-model (state.js `saveState`)

`saveState` is embedded at the granularity of its two filesystem
operations so that every externally observable intermediate point of a
persist can be inspected: `fs.writeFileSync(tmpPath, json)` followed by
`fs.renameSync(tmpPath, filePath)`.  A `writeFileSync` that crashes
midway leaves an arbitrary prefix of the document in the temp file; a
rename is atomic (it either has not happened or has fully happened). -/

/-- State plus its `updatedAt` timestamp, as serialized by `saveState`. -/
structure TimedState where
  base : ScaffoldState
  startedAt : Nat
  updatedAt : Nat
deriving DecidableEq, Repr

/-- state.js line 40: `state.updatedAt = new Date().toISOString()`. -/
def refreshUpdatedAt (s : TimedState) (now : Nat) : TimedState :=
  { s with updatedAt := now }

def statusString : Status → String
  | .pending => "pending"
  | .running => "running"
  | .done => "done"
  | .failed => "failed"

def quoted (s : String) : String := "\"" ++ s ++ "\""

def jsonList (xs : List String) : String :=
  "[" ++ String.intercalate "," (xs.map quoted) ++ "]"

def jsonStringOpt : Option String → String
  | none => "null"
  | some e => quoted e

/-- The JSON document `JSON.stringify(state, null, 2)` produces, flattened
(whitespace aside, field for field the serialization of state.js). -/
def serializeState (t : TimedState) : String :=
  "\x7b" ++
  quoted "projectName" ++ ":" ++ quoted t.base.projectName ++ "," ++
  quoted "template" ++ ":" ++ quoted t.base.template ++ "," ++
  quoted "components" ++ ":" ++ jsonList t.base.components ++ "," ++
  quoted "startedAt" ++ ":" ++ toString t.startedAt ++ "," ++
  quoted "updatedAt" ++ ":" ++ toString t.updatedAt ++ "," ++
  quoted "freshCreation" ++ ":" ++ toString t.base.freshCreation ++ "," ++
  quoted "steps" ++ ":\x7b" ++
    quoted "viteCreate" ++ ":" ++ quoted (statusString t.base.steps.viteCreate) ++ "," ++
    quoted "npmInstall" ++ ":" ++ quoted (statusString t.base.steps.npmInstall) ++ "," ++
    quoted "shadcnInit" ++ ":" ++ quoted (statusString t.base.steps.shadcnInit) ++ "," ++
    quoted "componentInstall" ++ ":" ++ quoted (statusString t.base.steps.componentInstall) ++ "," ++
    quoted "verification" ++ ":" ++ quoted (statusString t.base.steps.verification) ++
  "\x7d," ++
  quoted "installedComponents" ++ ":" ++ jsonList t.base.installedComponents ++ "," ++
  quoted "failedComponents" ++ ":" ++ jsonList t.base.failedComponents ++ "," ++
  quoted "error" ++ ":" ++ jsonStringOpt t.base.error ++
  "\x7d"

/-- The directory entries `saveState` touches: the canonical checkpoint
path (`<project>/.scaffolder-state.json`) and the temp path
(canonical plus `.tmp`).  `none` means the file is absent. -/
structure CheckpointFs where
  canonical : Option String
  tmp : Option String
deriving DecidableEq, Repr

/-- One filesystem operation issued by `saveState`. -/
inductive MicroOp
  | writeTmp (doc : String)
  | renameTmpToCanonical
deriving DecidableEq, Repr

/-- Effect of a completed operation. -/
def applyOp (fs : CheckpointFs) : MicroOp → CheckpointFs
  | .writeTmp doc => { fs with tmp := some doc }
  | .renameTmpToCanonical => { canonical := fs.tmp, tmp := none }

/-- state.js lines 39-45 as the ordered operation sequence: refresh
`updatedAt`, serialize, write the temp file, rename onto the canonical
path.  No operation targets the canonical path other than the rename. -/
def saveStateOps (s : TimedState) (now : Nat) : List MicroOp :=
  let refreshed := refreshUpdatedAt s now
  [MicroOp.writeTmp (serializeState refreshed), MicroOp.renameTmpToCanonical]

/-- Every filesystem content observable while one operation is in
progress or just finished.  A torn `writeTmp` leaves some prefix of the
document in the temp file; a rename is atomic. -/
def midStates (fs : CheckpointFs) : MicroOp → List CheckpointFs
  | .writeTmp doc =>
      (List.range (doc.length + 1)).map
        (fun k => { fs with tmp := some (doc.take k) })
  | .renameTmpToCanonical => [fs, applyOp fs .renameTmpToCanonical]

/-- Every filesystem content observable at any point of an operation
sequence, crashes between and inside operations included. -/
def reachableFs (fs : CheckpointFs) : List MicroOp → List CheckpointFs
  | [] => [fs]
  | op :: rest => midStates fs op ++ reachableFs (applyOp fs op) rest

/-! ## Installer Strategy (executor.js `installComponents`)

Each `runCommand` spawn either resolves with `{code, signal, timedOut}`
or rejects with a spawn error; the environment supplies, for the batch
call and for the k-th individual call actually made, that outcome and the
wall-clock time the call consumed.  Only calls actually made consume
time, so `elapsed` grows exactly by the attempted calls' durations. -/

/-- The resolved value of executor.js `runCommand` (`code` is `null` on a
timeout kill, hence an `Option`). -/
structure RunRes where
  code : Option Int
  timedOut : Bool
deriving DecidableEq, Repr

/-- Environment of subprocess outcomes for one `installComponents` run.
`Except.error` is a rejected spawn (the `catch` paths). -/
structure InstallEnv where
  batch : Except String RunRes
  batchDurationMs : Nat
  item : Nat → Except String RunRes
  itemDurationMs : Nat → Nat

/-- Record of one individual install attempt actually made, with the
timeout it was given (executor.js line 266). -/
structure Attempt where
  name : String
  timeoutMs : Int
deriving DecidableEq, Repr

/-- Accumulated outcome of the individual fallback loop. -/
structure LoopOut where
  installed : List String
  failed : List String
  attempts : List Attempt
deriving DecidableEq, Repr

/-- executor.js lines 256-293, the per-item fallback loop.  `idx` counts
the individual spawns made so far, `elapsed` is `Date.now() - startTime`
entering the iteration.  `remaining = timeout - elapsed`; at or below the
5000 ms reserve the item is pushed to `failed` without an attempt
(`continue`), otherwise one attempt runs with timeout
`min(60000, remaining)` and the item lands in `installed` on exit code 0,
else in `failed`. -/
def fallbackLoop (env : InstallEnv) (timeout : Nat) :
    List String → Nat → Nat → LoopOut
  | [], _, _ => ⟨[], [], []⟩
  | name :: rest, idx, elapsed =>
    let remaining : Int := (timeout : Int) - (elapsed : Int)
    if remaining ≤ 5000 then
      let r := fallbackLoop env timeout rest idx elapsed
      ⟨r.installed, name :: r.failed, r.attempts⟩
    else
      let att : Attempt := ⟨name, min 60000 remaining⟩
      match env.item idx with
      | .ok res =>
        let r := fallbackLoop env timeout rest (idx + 1)
          (elapsed + env.itemDurationMs idx)
        if res.code = some 0 then
          ⟨name :: r.installed, r.failed, att :: r.attempts⟩
        else
          ⟨r.installed, name :: r.failed, att :: r.attempts⟩
      | .error _ =>
        let r := fallbackLoop env timeout rest (idx + 1)
          (elapsed + env.itemDurationMs idx)
        ⟨r.installed, name :: r.failed, att :: r.attempts⟩

/-- Result of `installComponents` (`success: failed.length === 0`);
`attempts` additionally records the individual spawns made. -/
structure InstallResult where
  success : Bool
  installed : List String
  failed : List String
  attempts : List Attempt
deriving DecidableEq, Repr

/-- executor.js `TIMEOUTS.componentInstall` (utils.js line 33). -/
def componentInstallTimeoutMs : Nat := 300000

/-- executor.js lines 218-296: empty input succeeds trivially; a batch
call exiting 0 installs everything; otherwise (non-zero exit, timeout, or
spawn error) the individual fallback loop runs, its clock already
advanced by the batch call's duration. -/
def installComponents (env : InstallEnv) (components : List String)
    (timeout : Nat) : InstallResult :=
  if components.isEmpty then ⟨true, [], [], []⟩
  else
    match env.batch with
    | .ok res =>
      if res.code = some 0 then ⟨true, components, [], []⟩
      else
        let r := fallbackLoop env timeout components 0 env.batchDurationMs
        ⟨r.failed.isEmpty, r.installed, r.failed, r.attempts⟩
    | .error _ =>
      let r := fallbackLoop env timeout components 0 env.batchDurationMs
      ⟨r.failed.isEmpty, r.installed, r.failed, r.attempts⟩

/-! ## Step Pipeline (index.js `main`, steps 4a-5)

The pipeline is embedded as a function of the starting state (fresh or
loaded checkpoint) and an environment giving each external command's
observed outcome.  Every observable side effect is recorded in a trace:
`exec` marks the execution of a step's action, `persist` a `saveState`
call with the exact snapshot written, `cleanupDir` an executor.js
`cleanup(projectPath)` call, `removeCheckpoint` the `removeState` call.
`process.exit` codes are utils.js `EXIT_CODES` (0 success, 1 failure). -/

/-- One observable side effect of a pipeline run. -/
inductive Event
  | exec (step : StepName)
  | persist (s : ScaffoldState)
  | cleanupDir
  | removeCheckpoint
deriving DecidableEq, Repr

abbrev Trace := List Event

/-- Result of a whole run: exit code, final in-memory state, trace. -/
structure Outcome where
  exit : Nat
  state : ScaffoldState
  trace : Trace
deriving DecidableEq, Repr

/-- Either the run aborted with an outcome, or it continues. -/
abbrev StepRes := Outcome ⊕ (ScaffoldState × Trace)

/-- Outcome of one executor.js step helper (`createViteProject`,
`npmInstall`, `initShadcn`): success flag plus the error message built
from the exit code / timeout / spawn error on failure. -/
structure ExecResult where
  success : Bool
  error : String

/-- Environment of external outcomes for one pipeline run. `fsExists`
answers the `fs.existsSync` probes of `verifyProject` (paths relative to
the project directory). -/
structure PipeEnv where
  vite : ExecResult
  npm : ExecResult
  init : ExecResult
  install : InstallEnv
  fsExists : String → Bool

/-- Result of executor.js `verifyProject`. -/
structure VerifyResult where
  valid : Bool
  missing : List String
  warnings : List String
deriving DecidableEq, Repr

/-- executor.js lines 300-330: blocking existence checks (absence is
fatal), non-blocking expected artifacts, and per-component file checks
(only scanned when the ui directory exists).  `valid` iff nothing
blocking is missing. -/
def verifyProject (fsExists : String → Bool) (expected : List String) :
    VerifyResult :=
  let missing :=
    ["package.json", "node_modules", "src", "vite.config.ts"].filter
      (fun p => ¬ fsExists p)
  let warnings :=
    (["components.json", "src/lib/utils.ts", "src/components/ui"].filter
      (fun p => ¬ fsExists p)).map (fun p => "Expected not found: " ++ p)
  let compWarnings :=
    if fsExists "src/components/ui" then
      (expected.filter
        (fun n => ¬ fsExists ("src/components/ui/" ++ n ++ ".tsx"))).map
        (fun n => "Component file not found: src/components/ui/" ++ n ++ ".tsx")
    else []
  ⟨missing.isEmpty, missing, warnings ++ compWarnings⟩

/-- `state.steps[k] = st` (the mutation inside state.js `updateStep`). -/
def setStep (s : ScaffoldState) (k : StepName) (st : Status) : ScaffoldState :=
  { s with steps := s.steps.set k st }

/-- index.js step 4a (lines 252-269).  The bootstrap step runs with no
prior `running` mark or persist (the project directory does not exist
yet); on failure `cleanup(projectPath)` runs unconditionally and the
failure is recorded in memory only; on success the first persist ever
marks the step `done` directly. -/
def stepVite (env : PipeEnv) (s : ScaffoldState) (tr : Trace) : StepRes :=
  if s.steps.viteCreate = Status.done then .inr (s, tr)
  else if env.vite.success then
    let s2 := setStep s .viteCreate .done
    .inr (s2, tr ++ [Event.exec .viteCreate, Event.persist s2])
  else
    .inl ⟨1, { setStep s .viteCreate .failed with error := some env.vite.error },
      tr ++ [Event.exec .viteCreate, Event.cleanupDir]⟩

/-- index.js step 4b (lines 272-287): mark running and persist, run
`npm install`, then mark done, or mark failed with the error, persist,
and clean up the directory only for a fresh creation. -/
def stepNpm (env : PipeEnv) (s : ScaffoldState) (tr : Trace) : StepRes :=
  if s.steps.npmInstall = Status.done then .inr (s, tr)
  else
    let s1 := setStep s .npmInstall .running
    if env.npm.success then
      let s2 := setStep s1 .npmInstall .done
      .inr (s2, tr ++ [Event.persist s1, Event.exec .npmInstall, Event.persist s2])
    else
      let s2 := { setStep s1 .npmInstall .failed with error := some env.npm.error }
      .inl ⟨1, s2,
        (tr ++ [Event.persist s1, Event.exec .npmInstall, Event.persist s2]) ++
          (if s.freshCreation then [Event.cleanupDir] else [])⟩

/-- index.js step 4c (lines 290-305), same shape as the npm step. -/
def stepInit (env : PipeEnv) (s : ScaffoldState) (tr : Trace) : StepRes :=
  if s.steps.shadcnInit = Status.done then .inr (s, tr)
  else
    let s1 := setStep s .shadcnInit .running
    if env.init.success then
      let s2 := setStep s1 .shadcnInit .done
      .inr (s2, tr ++ [Event.persist s1, Event.exec .shadcnInit, Event.persist s2])
    else
      let s2 := { setStep s1 .shadcnInit .failed with error := some env.init.error }
      .inl ⟨1, s2,
        (tr ++ [Event.persist s1, Event.exec .shadcnInit, Event.persist s2]) ++
          (if s.freshCreation then [Event.cleanupDir] else [])⟩

/-- index.js step 4d (lines 308-321): mark running and persist, run the
Installer Strategy on the state's component list, then always mark the
step done, persisting the result's installed/failed lists into the
state.  Per-item failures are non-fatal; this step never aborts. -/
def stepComponent (env : PipeEnv) (s : ScaffoldState) (tr : Trace) :
    ScaffoldState × Trace :=
  if s.steps.componentInstall = Status.done then (s, tr)
  else
    let s1 := setStep s .componentInstall .running
    let r := installComponents env.install s.components componentInstallTimeoutMs
    let s2 := { setStep s1 .componentInstall .done with
      installedComponents := r.installed, failedComponents := r.failed }
    (s2, tr ++ [Event.persist s1, Event.exec .componentInstall, Event.persist s2])

/-- index.js step 4e (lines 324-347): mark running and persist, scan the
project tree (`verifyProject`, recorded as the step's action in the
trace), then mark done, or mark failed with the missing list in the
error and persist; verification failure never cleans the directory. -/
def stepVerify (env : PipeEnv) (s : ScaffoldState) (tr : Trace) : StepRes :=
  if s.steps.verification = Status.done then .inr (s, tr)
  else
    let s1 := setStep s .verification .running
    let v := verifyProject env.fsExists s.installedComponents
    if v.valid then
      let s2 := setStep s1 .verification .done
      .inr (s2, tr ++ [Event.persist s1, Event.exec .verification, Event.persist s2])
    else
      let s2 := { setStep s1 .verification .failed with
        error := some ("Verification failed. Missing: " ++
          String.intercalate ", " v.missing) }
      .inl ⟨1, s2, tr ++ [Event.persist s1, Event.exec .verification, Event.persist s2]⟩

/-- Steps 4e and 5 of index.js: verification, then on success
`removeState` (the only checkpoint removal) and exit 0. -/
def finishVerify (env : PipeEnv) (s : ScaffoldState) (tr : Trace) : Outcome :=
  match stepVerify env s tr with
  | .inl o => o
  | .inr (s5, t5) => ⟨0, s5, t5 ++ [Event.removeCheckpoint]⟩

/-- Steps 4d, 4e and 5 of index.js: component install (never fatal),
then verification and the success epilogue. -/
def pipelineTail (env : PipeEnv) (s : ScaffoldState) (tr : Trace) : Outcome :=
  let p := stepComponent env s tr
  finishVerify env p.1 p.2

/-- index.js `main`, steps 4a-5, starting from a created-or-loaded
state.  Each fatal step failure aborts with exit code 1. -/
def runPipeline (env : PipeEnv) (s0 : ScaffoldState) : Outcome :=
  match stepVite env s0 [] with
  | .inl o => o
  | .inr (s1, t1) =>
    match stepNpm env s1 t1 with
    | .inl o => o
    | .inr (s2, t2) =>
      match stepInit env s2 t2 with
      | .inl o => o
      | .inr (s3, t3) => pipelineTail env s3 t3

/-- Outcome of the SIGINT/SIGTERM handler (index.js lines 169-194). -/
structure HandlerOutcome where
  exit : Nat
  state : Option ScaffoldState
  persisted : Bool
  cleanupInvoked : Bool
  removedCheckpoint : Bool
deriving Repr

/-- index.js `registerSignalHandlers`: when a current state is set,
every `running` step is relabeled `failed`, an interruption error is
attached, and a persist is attempted (`persistOk` says whether the
`saveState` succeeded; a failure is swallowed).  The process always
exits with `EXIT_CODES.FAILURE`; no cleanup and no checkpoint removal
happen on interrupt. -/
def handleSignal (cur : Option ScaffoldState) (signal : String)
    (persistOk : Bool) : HandlerOutcome :=
  match cur with
  | none => ⟨1, none, false, false, false⟩
  | some s =>
    let failRunning : Status → Status :=
      fun st => if st = Status.running then Status.failed else st
    let s2 : ScaffoldState := { s with
      steps := ⟨failRunning s.steps.viteCreate, failRunning s.steps.npmInstall,
        failRunning s.steps.shadcnInit, failRunning s.steps.componentInstall,
        failRunning s.steps.verification⟩,
      error := some ("Interrupted by " ++ signal) }
    ⟨1, some s2, persistOk, false, false⟩

/-- When index.js deletes the project directory: a bootstrap failure
cleans unconditionally (line 260); a dependency-install or tool-init
failure cleans only for a fresh creation (lines 281, 299). -/
def cleanupCond (env : PipeEnv) (s0 : ScaffoldState) : Prop :=
  (s0.steps.viteCreate ≠ Status.done ∧ env.vite.success = false) ∨
  ((s0.steps.viteCreate = Status.done ∨ env.vite.success = true) ∧
    s0.steps.npmInstall ≠ Status.done ∧ env.npm.success = false ∧
    s0.freshCreation = true) ∨
  ((s0.steps.viteCreate = Status.done ∨ env.vite.success = true) ∧
    (s0.steps.npmInstall = Status.done ∨ env.npm.success = true) ∧
    s0.steps.shadcnInit ≠ Status.done ∧ env.init.success = false ∧
    s0.freshCreation = true)

/-! ## Preflight Validator (validator.js `validateInputs`) and `main`

Filesystem probes are supplied by a `ValidatorFs` record; error strings
follow the source, with the interpolated filesystem paths omitted (paths
are outside the model). -/

def isAsciiLetter (c : Char) : Bool :=
  (('a' ≤ c) && (c ≤ 'z')) || (('A' ≤ c) && (c ≤ 'Z'))

def isAsciiDigit (c : Char) : Bool := ('0' ≤ c) && (c ≤ '9')

def isLowerLetter (c : Char) : Bool := ('a' ≤ c) && (c ≤ 'z')

/-- validator.js line 12, the regex `^[a-zA-Z][a-zA-Z0-9._-]*$`. -/
def isValidProjectName (s : String) : Bool :=
  match s.data with
  | [] => false
  | c :: rest =>
    isAsciiLetter c &&
      rest.all (fun d =>
        isAsciiLetter d || isAsciiDigit d || d = '.' || d = '_' || d = '-')

/-- validator.js line 36, the regex `^[a-z][a-z0-9-]*$`. -/
def isValidComponentName (s : String) : Bool :=
  match s.data with
  | [] => false
  | c :: rest =>
    isLowerLetter c &&
      rest.all (fun d => isLowerLetter d || isAsciiDigit d || d = '-')

/-- `[...new Set(components)]`: de-duplication keeping the first
occurrence of each name, in insertion order. -/
def jsSetDedupAux : List String → List String → List String
  | [], _ => []
  | a :: l, seen =>
    if a ∈ seen then jsSetDedupAux l seen
    else a :: jsSetDedupAux l (a :: seen)

def jsSetDedup (l : List String) : List String := jsSetDedupAux l []

/-- utils.js `TEMPLATES[name].components`. -/
def templateComponents : String → Option (List String)
  | "minimal" => some ["button", "card", "badge", "input"]
  | "form" => some ["button", "card", "input", "label", "form",
      "select", "checkbox", "radio-group", "textarea", "switch"]
  | "dashboard" => some ["button", "card", "badge", "input", "tabs", "table",
      "chart", "sidebar", "dropdown-menu", "avatar", "separator", "skeleton"]
  | _ => none

/-- validator.js line 42. -/
def duplicateErrorMsg : String :=
  "Duplicate component names detected. Remove duplicates."

/-- The filesystem facts `validateInputs` probes: the target parent
directory, the prospective project directory, and the checkpoint file
inside it (`none`: no file; `some none`: present but corrupted;
`some (some st)`: parses to `st`). -/
structure ValidatorFs where
  targetDirExists : Bool
  targetIsDirectory : Bool
  targetWritable : Bool
  projectDirExists : Bool
  stateFile : Option (Option ScaffoldState)
deriving Repr

/-- Result of `validateInputs` (validator.js lines 89-95). -/
structure ValidationResult where
  valid : Bool
  errors : List String
  resolvedComponents : List String
  existingState : Option ScaffoldState
deriving Repr

/-- validator.js `validateInputs`: accumulates every error (never
fail-fast), resolves the component list, and surfaces a pre-existing
checkpoint for resume. -/
def validateInputs (projectName template : String)
    (components : List String) (fs : ValidatorFs) : ValidationResult :=
  let nameErrors :=
    if projectName = "" then ["Project name is required."]
    else if ¬ isValidProjectName projectName then
      ["Invalid project name \"" ++ projectName ++
        "\". Must start with a letter, contain only letters, digits, dots, hyphens, underscores."]
    else []
  let templErrors :=
    if template = "minimal" ∨ template = "form" ∨ template = "dashboard" ∨
        template = "custom" then []
    else ["Invalid template \"" ++ template ++
      "\". Must be one of: minimal, form, dashboard, custom"]
  let compPair :=
    if template = "custom" then
      if components.isEmpty then
        (["Custom template requires at least one component via --components."],
          ([] : List String))
      else if 20 < components.length then
        (["Too many components (" ++ toString components.length ++
          "). Maximum is 20."], [])
      else
        ((components.filter (fun n => ¬ isValidComponentName n)).map
            (fun n => "Invalid component name \"" ++ n ++
              "\". Use lowercase letters, digits, hyphens.") ++
          (if (jsSetDedup components).length ≠ components.length then
            [duplicateErrorMsg] else []),
         jsSetDedup components)
    else
      match templateComponents template with
      | some cs => ([], cs)
      | none => ([], [])
  let targetErrors :=
    if ¬ fs.targetDirExists then ["Target directory does not exist."]
    else
      (if ¬ fs.targetIsDirectory then ["Target path is not a directory."]
       else []) ++
      (if ¬ fs.targetWritable then ["Target directory is not writable."]
       else [])
  let projPair :=
    if fs.projectDirExists then
      match fs.stateFile with
      | some (some st) => (([] : List String), some st)
      | some none =>
        (["State file exists but is corrupted. Delete it to start fresh."],
          none)
      | none =>
        (["Directory already exists. Delete it or choose a different project name."],
          none)
    else ([], none)
  let errors :=
    nameErrors ++ templErrors ++ compPair.1 ++ targetErrors ++ projPair.1
  ⟨errors.isEmpty, errors, compPair.2, projPair.2⟩

/-- index.js `main`, from validation onward: on validation failure the
process exits 1 having run nothing (empty trace); otherwise the state is
loaded from the checkpoint (with `freshCreation := false`) or created
fresh, and the pipeline runs.  The state in the failure outcome is a
placeholder (the real process exits before creating one). -/
def runMain (projectName template : String) (components : List String)
    (vfs : ValidatorFs) (env : PipeEnv) : Outcome :=
  let v := validateInputs projectName template components vfs
  if v.valid then
    let s0 := match v.existingState with
      | some st => { st with freshCreation := false }
      | none => createInitialState projectName template v.resolvedComponents
    runPipeline env s0
  else ⟨1, createInitialState projectName template v.resolvedComponents, []⟩

/-! ## Concrete scenario material -/

/-- A checkpoint state with the bootstrap step done and everything else
pending, as resumed by `main` (`freshCreation := false`). -/
def resumedAfterBootstrap : ScaffoldState :=
  { projectName := "my-app", template := "minimal",
    components := ["button", "card", "badge", "input"],
    freshCreation := false,
    steps := ⟨.done, .pending, .pending, .pending, .pending⟩,
    installedComponents := [], failedComponents := [], error := none }

/-- An environment in which every external command succeeds. -/
def envAllOk : PipeEnv :=
  { vite := ⟨true, ""⟩, npm := ⟨true, ""⟩, init := ⟨true, ""⟩,
    install := ⟨Except.ok ⟨some 0, false⟩, 1000,
      fun _ => Except.ok ⟨some 0, false⟩, fun _ => 1000⟩,
    fsExists := fun _ => true }

/-- Trace scanner: before the first `exec` of `step`, some snapshot with
that step `running` has been persisted (vacuously true when the step is
never executed). -/
def runningPersistBeforeExec (step : StepName) : Trace → Bool
  | [] => true
  | Event.exec st :: rest =>
    if st = step then false else runningPersistBeforeExec step rest
  | Event.persist s :: rest =>
    if s.steps.get step = Status.running then true
    else runningPersistBeforeExec step rest
  | _ :: rest => runningPersistBeforeExec step rest

/-- Fresh-run filesystem: target parent ok, no project directory. -/
def vfsFresh : ValidatorFs := ⟨true, true, true, false, none⟩

/-- Environment of the success-with-warnings scenario: the batch install
exits non-zero, the first individual attempt fails, later ones succeed,
and everything else succeeds. -/
def envWarn : PipeEnv :=
  { vite := ⟨true, ""⟩, npm := ⟨true, ""⟩, init := ⟨true, ""⟩,
    install := ⟨Except.ok ⟨some 1, false⟩, 1000,
      fun k => Except.ok ⟨some (if k = 0 then 1 else 0), false⟩,
      fun _ => 1000⟩,
    fsExists := fun _ => true }

/-- Environment in which the bootstrap command fails. -/
def envViteFail : PipeEnv :=
  { vite := ⟨false, "Vite creation failed with exit code 1"⟩,
    npm := ⟨true, ""⟩, init := ⟨true, ""⟩,
    install := ⟨Except.ok ⟨some 0, false⟩, 1000,
      fun _ => Except.ok ⟨some 0, false⟩, fun _ => 1000⟩,
    fsExists := fun _ => true }

/-- A resumed checkpoint (as left by an interrupt during the bootstrap
command: no step ever reached `running`) with the bootstrap step still
pending — `freshCreation` is false because `main` resumed it. -/
def resumedViteIncomplete : ScaffoldState :=
  { projectName := "my-app", template := "minimal",
    components := ["button", "card", "badge", "input"],
    freshCreation := false,
    steps := ⟨.pending, .pending, .pending, .pending, .pending⟩,
    installedComponents := [], failedComponents := [], error := none }

/-- Trace of a step result, whether it aborted or continued. -/
def resTrace : StepRes → Trace
  | .inl o => o.trace
  | .inr p => p.2

/-- A fresh state for the minimal template. -/
def freshMinimal : ScaffoldState :=
  createInitialState "my-app" "minimal" ["button", "card", "badge", "input"]

/-- A 21-item custom list, every entry the same name. -/
def dup21 : List String := List.replicate 21 "button"

/-- Claim C1: `saveState` refreshes `updatedAt`, writes the full
serialization of the refreshed state to the temp path, and only then
renames it onto the canonical path; no operation before the final rename
modifies the canonical path, so at every intermediate point (torn writes
included) the canonical path holds either the prior checkpoint content
(or is absent if none existed) or the complete new document — never a
partial one. -/
theorem saveState_atomic (s : TimedState) (now : Nat) (fs : CheckpointFs) :
    saveStateOps s now =
      [MicroOp.writeTmp (serializeState (refreshUpdatedAt s now)),
        MicroOp.renameTmpToCanonical] ∧
    (∀ op ∈ saveStateOps s now, op ≠ MicroOp.renameTmpToCanonical →
      ∀ g : CheckpointFs, (applyOp g op).canonical = g.canonical) ∧
    (∀ fs' ∈ reachableFs fs (saveStateOps s now),
      fs'.canonical = fs.canonical ∨
        fs'.canonical = some (serializeState (refreshUpdatedAt s now))) := by
  refine ⟨rfl, ?_, ?_⟩
  · intro op hop hne g
    simp only [saveStateOps, List.mem_cons, List.mem_singleton] at hop
    rcases hop with h | h | h
    · subst h; rfl
    · exact absurd h hne
    · cases h
  · intro fs' hmem
    have hexp : reachableFs fs (saveStateOps s now) =
        ((List.range ((serializeState (refreshUpdatedAt s now)).length + 1)).map
          (fun k => { fs with
            tmp := some ((serializeState (refreshUpdatedAt s now)).take k) })) ++
        [{ fs with tmp := some (serializeState (refreshUpdatedAt s now)) },
          { canonical := some (serializeState (refreshUpdatedAt s now)), tmp := none },
          { canonical := some (serializeState (refreshUpdatedAt s now)), tmp := none }] := rfl
    rw [hexp] at hmem
    rcases List.mem_append.mp hmem with h | h
    · obtain ⟨k, -, he⟩ := List.mem_map.mp h
      left
      rw [← he]
    · simp only [List.mem_cons, List.not_mem_nil, or_false] at h
      rcases h with h | h | h
      · left; rw [h]
      · right; rw [h]
      · right; rw [h]

set_option maxRecDepth 8000 in
/-- Witness for `saveState_atomic` at a concrete state, timestamp and
prior filesystem: the intermediate point where the temp file holds only
the empty prefix of the new document still shows the prior checkpoint at
the canonical path. -/
theorem saveState_atomic_witness :
    (let s0 : TimedState :=
      ⟨createInitialState "my-app" "minimal" ["button"], 0, 0⟩
     let fs0 : CheckpointFs := ⟨some "prior", none⟩
     let torn : CheckpointFs := ⟨some "prior", some ""⟩
     torn ∈ reachableFs fs0 (saveStateOps s0 7) ∧
      (torn.canonical = fs0.canonical ∨
        torn.canonical = some (serializeState (refreshUpdatedAt s0 7)))) := by
  refine ⟨by decide, ?_⟩
  exact (saveState_atomic ⟨createInitialState "my-app" "minimal" ["button"], 0, 0⟩
    7 ⟨some "prior", none⟩).2.2 ⟨some "prior", some ""⟩ (by decide)

/-- Claim C3: the fallback loop computes `remaining = timeout - elapsed`
before each item; once `remaining ≤ 5000` the current item and every
remaining item are marked failed with no attempt made, and otherwise the
item is attempted with timeout `min(60000, remaining)`. -/
theorem fallbackLoop_budget :
    (∀ (env : InstallEnv) (timeout : Nat) (items : List String)
      (idx elapsed : Nat),
      (timeout : Int) - (elapsed : Int) ≤ 5000 →
      fallbackLoop env timeout items idx elapsed = ⟨[], items, []⟩) ∧
    (∀ (env : InstallEnv) (timeout : Nat) (name : String)
      (rest : List String) (idx elapsed : Nat),
      5000 < (timeout : Int) - (elapsed : Int) →
      (fallbackLoop env timeout (name :: rest) idx elapsed).attempts.head? =
        some ⟨name, min 60000 ((timeout : Int) - (elapsed : Int))⟩) := by
  constructor
  · intro env timeout items idx elapsed h
    induction items with
    | nil => rfl
    | cons name rest ih =>
      simp only [fallbackLoop, if_pos h, ih]
  · intro env timeout name rest idx elapsed h
    simp only [fallbackLoop, if_neg (not_le.mpr h)]
    rcases hres : env.item idx with msg | res
    · simp only [hres]; rfl
    · simp only [hres]
      by_cases hc : res.code = some 0 <;> simp [hc]

/-- Witness for `fallbackLoop_budget`: with a 10-second budget already
consumed down to 4 s, both items are failed unattempted; with a fresh
300-second budget the first item is attempted with the 60-second cap. -/
theorem fallbackLoop_budget_witness :
    ((300000 : Int) - (6000 : Nat) ≤ 5000 → False) ∧
    fallbackLoop ⟨Except.ok ⟨some 1, false⟩, 0, fun _ => Except.ok ⟨some 0, false⟩,
        fun _ => 1000⟩ 9000 ["card", "tabs"] 0 6000 = ⟨[], ["card", "tabs"], []⟩ ∧
    (fallbackLoop ⟨Except.ok ⟨some 1, false⟩, 0, fun _ => Except.ok ⟨some 0, false⟩,
        fun _ => 1000⟩ 300000 ["card", "tabs"] 0 6000).attempts.head? =
      some ⟨"card", min 60000 ((300000 : Int) - (6000 : Nat))⟩ := by
  refine ⟨by decide, ?_, ?_⟩
  · exact fallbackLoop_budget.1
      ⟨Except.ok ⟨some 1, false⟩, 0, fun _ => Except.ok ⟨some 0, false⟩,
        fun _ => 1000⟩ 9000 ["card", "tabs"] 0 6000 (by decide)
  · exact fallbackLoop_budget.2
      ⟨Except.ok ⟨some 1, false⟩, 0, fun _ => Except.ok ⟨some 0, false⟩,
        fun _ => 1000⟩ 300000 "card" ["tabs"] 0 6000 (by decide)

/-! ## Structural lemmas about the installer -/

/-- Every item of the fallback loop input lands in exactly one of
`installed`/`failed` (the two lists together are a permutation of the
input, in particular items skipped on budget exhaustion are pushed to
`failed`, not dropped). -/
theorem fallbackLoop_perm (env : InstallEnv) (timeout : Nat) :
    ∀ (items : List String) (idx elapsed : Nat),
      ((fallbackLoop env timeout items idx elapsed).installed ++
        (fallbackLoop env timeout items idx elapsed).failed).Perm items := by
  intro items
  induction items with
  | nil => intro idx elapsed; simp [fallbackLoop]
  | cons name rest ih =>
    intro idx elapsed
    by_cases hrem : ((timeout : Int) - (elapsed : Int)) ≤ 5000
    · simp only [fallbackLoop, if_pos hrem]
      exact List.perm_middle.trans ((ih idx elapsed).cons name)
    · simp only [fallbackLoop, if_neg hrem]
      rcases hres : env.item idx with msg | res
    

      · simp only [hres]
        exact List.perm_middle.trans
          ((ih (idx + 1) (elapsed + env.itemDurationMs idx)).cons name)
      · simp only [hres]
        by_cases hc : res.code = some 0
        · simp only [if_pos hc]
          exact (ih (idx + 1) (elapsed + env.itemDurationMs idx)).cons name
        · simp only [if_neg hc]
          exact List.perm_middle.trans
            ((ih (idx + 1) (elapsed + env.itemDurationMs idx)).cons name)

/-- `installed ++ failed` is always a permutation of the input list. -/
theorem installComponents_perm (env : InstallEnv) (components : List String)
    (timeout : Nat) :
    ((installComponents env components timeout).installed ++
      (installComponents env components timeout).failed).Perm components := by
  by_cases hempty : components.isEmpty
  · simp only [installComponents, if_pos hempty]
    simp [List.isEmpty_iff.mp hempty]
  · simp only [installComponents, if_neg hempty]
    rcases hb : env.batch with msg | res
    · simp only [hb]
      exact fallbackLoop_perm env timeout components 0 env.batchDurationMs
    · simp only [hb]
      by_cases hc : res.code = some 0
      · simp [hc]
      · simp only [if_neg hc]
        exact fallbackLoop_perm env timeout components 0 env.batchDurationMs

/-- Core of the partition property: on a duplicate-free input the two
result lists are disjoint and their sizes sum to at most the input
length. -/
theorem installComponents_partition_core (env : InstallEnv)
    (components : List String) (timeout : Nat) (hnd : components.Nodup) :
    (installComponents env components timeout).installed.Disjoint
      (installComponents env components timeout).failed ∧
    (installComponents env components timeout).installed.length +
      (installComponents env components timeout).failed.length ≤
        components.length := by
  have hperm := installComponents_perm env components timeout
  have hnodup : ((installComponents env components timeout).installed ++
      (installComponents env components timeout).failed).Nodup :=
    hperm.nodup_iff.mpr hnd
  refine ⟨(List.nodup_append.mp hnodup).2.2, ?_⟩
  have hlen := hperm.length_eq
  rw [List.length_append] at hlen
  exact hlen.le

/-- Claim C4 (amended with a duplicate-free input, which is what the
pipeline passes on any fresh run: templates are duplicate-free and
custom lists are de-duplicated by validation): the installer's installed
and failed lists are disjoint and their sizes sum to at most the input
length, and the componentInstall step persists exactly those two lists
into the state, so the persisted fields satisfy the same partition
property. -/
theorem installComponents_partition_nodup :
    (∀ (env : InstallEnv) (components : List String) (timeout : Nat),
      components.Nodup →
      (installComponents env components timeout).installed.Disjoint
        (installComponents env components timeout).failed ∧
      (installComponents env components timeout).installed.length +
        (installComponents env components timeout).failed.length ≤
          components.length) ∧
    (∀ (env : PipeEnv) (s : ScaffoldState) (tr : Trace),
      s.steps.componentInstall ≠ Status.done → s.components.Nodup →
      (stepComponent env s tr).1.installedComponents =
        (installComponents env.install s.components
          componentInstallTimeoutMs).installed ∧
      (stepComponent env s tr).1.failedComponents =
        (installComponents env.install s.components
          componentInstallTimeoutMs).failed ∧
      (stepComponent env s tr).1.installedComponents.Disjoint
        (stepComponent env s tr).1.failedComponents) := by
  refine ⟨installComponents_partition_core, ?_⟩
  intro env s tr h hnd
  refine ⟨?_, ?_, ?_⟩ <;> simp only [stepComponent, if_neg h]
  exact (installComponents_partition_core env.install s.components
    componentInstallTimeoutMs hnd).1

/-- Witness for `installComponents_partition_nodup` on the minimal
template list with a failing batch and mixed individual outcomes. -/
theorem installComponents_partition_nodup_witness :
    (["button", "card", "badge", "input"] : List String).Nodup ∧
    ((installComponents
        ⟨Except.ok ⟨some 1, false⟩, 1000,
          fun k => Except.ok ⟨some (if k = 0 then 1 else 0), false⟩,
          fun _ => 1000⟩
        ["button", "card", "badge", "input"] 300000).installed.Disjoint
      (installComponents
        ⟨Except.ok ⟨some 1, false⟩, 1000,
          fun k => Except.ok ⟨some (if k = 0 then 1 else 0), false⟩,
          fun _ => 1000⟩
        ["button", "card", "badge", "input"] 300000).failed) := by
  refine ⟨by decide, ?_⟩
  exact (installComponents_partition_nodup.1
    ⟨Except.ok ⟨some 1, false⟩, 1000,
      fun k => Except.ok ⟨some (if k = 0 then 1 else 0), false⟩,
      fun _ => 1000⟩
    ["button", "card", "badge", "input"] 300000 (by decide)).1

/-- Counterexample to claim C4 as stated over every input list: with a
duplicated input name whose first individual attempt succeeds and whose
second fails, the name appears in both result lists, so `installed` and
`failed` are not disjoint (each `npx` spawn is an independent process,
so two attempts for the same name may well differ in outcome). -/
theorem installComponents_disjoint_counterexample :
    ¬ ((installComponents
        ⟨Except.ok ⟨some 1, false⟩, 1000,
          fun k => Except.ok ⟨some (if k = 0 then 0 else 1), false⟩,
          fun _ => 1000⟩
        ["button", "button"] 300000).installed.Disjoint
      (installComponents
        ⟨Except.ok ⟨some 1, false⟩, 1000,
          fun k => Except.ok ⟨some (if k = 0 then 0 else 1), false⟩,
          fun _ => 1000⟩
        ["button", "button"] 300000).failed) := by
  intro hdisj
  exact hdisj (a := "button") (by decide) (by decide)

/-! ## Step characterization lemmas

For each pipeline step, one rewrite lemma per source branch (step
already done / action succeeded / action failed), then destructor
lemmas packaging what an abort or a continuation implies. -/

theorem stepVite_skip (env : PipeEnv) (s : ScaffoldState) (tr : Trace)
    (h : s.steps.viteCreate = Status.done) :
    stepVite env s tr = .inr (s, tr) := by
  simp [stepVite, h]

theorem stepVite_ok (env : PipeEnv) (s : ScaffoldState) (tr : Trace)
    (h : s.steps.viteCreate ≠ Status.done) (hs : env.vite.success = true) :
    stepVite env s tr = .inr (setStep s .viteCreate .done,
      tr ++ [Event.exec .viteCreate,
        Event.persist (setStep s .viteCreate .done)]) := by
  simp [stepVite, h, hs]

theorem stepVite_fail (env : PipeEnv) (s : ScaffoldState) (tr : Trace)
    (h : s.steps.viteCreate ≠ Status.done) (hs : env.vite.success = false) :
    stepVite env s tr = .inl ⟨1,
      { setStep s .viteCreate .failed with error := some env.vite.error },
      tr ++ [Event.exec .viteCreate, Event.cleanupDir]⟩ := by
  simp [stepVite, h, hs]

theorem stepNpm_skip (env : PipeEnv) (s : ScaffoldState) (tr : Trace)
    (h : s.steps.npmInstall = Status.done) :
    stepNpm env s tr = .inr (s, tr) := by
  simp [stepNpm, h]

theorem stepNpm_ok (env : PipeEnv) (s : ScaffoldState) (tr : Trace)
    (h : s.steps.npmInstall ≠ Status.done) (hs : env.npm.success = true) :
    stepNpm env s tr = .inr
      (setStep (setStep s .npmInstall .running) .npmInstall .done,
       tr ++ [Event.persist (setStep s .npmInstall .running),
         Event.exec .npmInstall,
         Event.persist (setStep (setStep s .npmInstall .running)
           .npmInstall .done)]) := by
  simp [stepNpm, h, hs]

theorem stepNpm_fail (env : PipeEnv) (s : ScaffoldState) (tr : Trace)
    (h : s.steps.npmInstall ≠ Status.done) (hs : env.npm.success = false) :
    stepNpm env s tr = .inl ⟨1,
      { setStep (setStep s .npmInstall .running) .npmInstall .failed with
        error := some env.npm.error },
      (tr ++ [Event.persist (setStep s .npmInstall .running),
        Event.exec .npmInstall,
        Event.persist { setStep (setStep s .npmInstall .running)
          .npmInstall .failed with error := some env.npm.error }]) ++
        (if s.freshCreation then [Event.cleanupDir] else [])⟩ := by
  simp [stepNpm, h, hs]

theorem stepInit_skip (env : PipeEnv) (s : ScaffoldState) (tr : Trace)
    (h : s.steps.shadcnInit = Status.done) :
    stepInit env s tr = .inr (s, tr) := by
  simp [stepInit, h]

theorem stepInit_ok (env : PipeEnv) (s : ScaffoldState) (tr : Trace)
    (h : s.steps.shadcnInit ≠ Status.done) (hs : env.init.success = true) :
    stepInit env s tr = .inr
      (setStep (setStep s .shadcnInit .running) .shadcnInit .done,
       tr ++ [Event.persist (setStep s .shadcnInit .running),
         Event.exec .shadcnInit,
         Event.persist (setStep (setStep s .shadcnInit .running)
           .shadcnInit .done)]) := by
  simp [stepInit, h, hs]

theorem stepInit_fail (env : PipeEnv) (s : ScaffoldState) (tr : Trace)
    (h : s.steps.shadcnInit ≠ Status.done) (hs : env.init.success = false) :
    stepInit env s tr = .inl ⟨1,
      { setStep (setStep s .shadcnInit .running) .shadcnInit .failed with
        error := some env.init.error },
      (tr ++ [Event.persist (setStep s .shadcnInit .running),
        Event.exec .shadcnInit,
        Event.persist { setStep (setStep s .shadcnInit .running)
          .shadcnInit .failed with error := some env.init.error }]) ++
        (if s.freshCreation then [Event.cleanupDir] else [])⟩ := by
  simp [stepInit, h, hs]

theorem stepComponent_skip (env : PipeEnv) (s : ScaffoldState) (tr : Trace)
    (h : s.steps.componentInstall = Status.done) :
    stepComponent env s tr = (s, tr) := by
  simp [stepComponent, h]

theorem stepComponent_run (env : PipeEnv) (s : ScaffoldState) (tr : Trace)
    (h : s.steps.componentInstall ≠ Status.done) :
    stepComponent env s tr =
      ({ setStep (setStep s .componentInstall .running)
          .componentInstall .done with
         installedComponents := (installComponents env.install s.components
           componentInstallTimeoutMs).installed,
         failedComponents := (installComponents env.install s.components
           componentInstallTimeoutMs).failed },
       tr ++ [Event.persist (setStep s .componentInstall .running),
         Event.exec .componentInstall,
         Event.persist { setStep (setStep s .componentInstall .running)
            .componentInstall .done with
           installedComponents := (installComponents env.install s.components
             componentInstallTimeoutMs).installed,
           failedComponents := (installComponents env.install s.components
             componentInstallTimeoutMs).failed }]) := by
  simp [stepComponent, h]

theorem stepVerify_skip (env : PipeEnv) (s : ScaffoldState) (tr : Trace)
    (h : s.steps.verification = Status.done) :
    stepVerify env s tr = .inr (s, tr) := by
  simp [stepVerify, h]

theorem stepVerify_ok (env : PipeEnv) (s : ScaffoldState) (tr : Trace)
    (h : s.steps.verification ≠ Status.done)
    (hv : (verifyProject env.fsExists s.installedComponents).valid = true) :
    stepVerify env s tr = .inr
      (setStep (setStep s .verification .running) .verification .done,
       tr ++ [Event.persist (setStep s .verification .running),
         Event.exec .verification,
         Event.persist (setStep (setStep s .verification .running)
           .verification .done)]) := by
  simp [stepVerify, h, hv]

theorem stepVerify_fail (env : PipeEnv) (s : ScaffoldState) (tr : Trace)
    (h : s.steps.verification ≠ Status.done)
    (hv : (verifyProject env.fsExists s.installedComponents).valid = false) :
    stepVerify env s tr = .inl ⟨1,
      { setStep (setStep s .verification .running) .verification .failed with
        error := some ("Verification failed. Missing: " ++
          String.intercalate ", "
            (verifyProject env.fsExists s.installedComponents).missing) },
      tr ++ [Event.persist (setStep s .verification .running),
        Event.exec .verification,
        Event.persist { setStep (setStep s .verification .running)
          .verification .failed with
          error := some ("Verification failed. Missing: " ++
            String.intercalate ", "
              (verifyProject env.fsExists s.installedComponents).missing) }]⟩ := by
  simp [stepVerify, h, hv]

theorem stepVite_inr_spec (env : PipeEnv) (s : ScaffoldState) (tr : Trace)
    (s2 : ScaffoldState) (tr2 : Trace)
    (h : stepVite env s tr = Sum.inr (s2, tr2)) :
    (s.steps.viteCreate = Status.done ∨ env.vite.success = true) ∧
    s2.steps.viteCreate = Status.done ∧
    s2.steps.npmInstall = s.steps.npmInstall ∧
    s2.steps.shadcnInit = s.steps.shadcnInit ∧
    s2.steps.componentInstall = s.steps.componentInstall ∧
    s2.steps.verification = s.steps.verification ∧
    s2.freshCreation = s.freshCreation ∧
    s2.components = s.components ∧
    s2.installedComponents = s.installedComponents ∧
    s2.failedComponents = s.failedComponents ∧
    ∃ ext, tr2 = tr ++ ext ∧
      (∀ st, Event.exec st ∈ ext → st = StepName.viteCreate) ∧
      Event.cleanupDir ∉ ext ∧ Event.removeCheckpoint ∉ ext ∧
      (s.steps.viteCreate = Status.done → ext = []) := by
  by_cases hd : s.steps.viteCreate = Status.done
  · rw [stepVite_skip env s tr hd] at h
    obtain ⟨rfl, rfl⟩ : s = s2 ∧ tr = tr2 := by simpa using h
    exact ⟨Or.inl hd, hd, rfl, rfl, rfl, rfl, rfl, rfl, rfl, rfl,
      [], by simp, by simp, by simp, by simp, fun _ => rfl⟩
  · cases hs : env.vite.success
    · rw [stepVite_fail env s tr hd hs] at h
      simp at h
    · rw [stepVite_ok env s tr hd hs] at h
      obtain ⟨rfl, rfl⟩ : setStep s .viteCreate .done = s2 ∧
          tr ++ [Event.exec .viteCreate,
            Event.persist (setStep s .viteCreate .done)] = tr2 := by
        simpa using h
      refine ⟨Or.inr rfl, rfl, rfl, rfl, rfl, rfl, rfl, rfl, rfl, rfl,
        [Event.exec .viteCreate, Event.persist (setStep s .viteCreate .done)],
        rfl, ?_, by simp, by simp, fun hdd => absurd hdd hd⟩
      intro st hst
      simpa using hst

theorem stepVite_inl_spec (env : PipeEnv) (s : ScaffoldState) (tr : Trace)
    (o : Outcome) (h : stepVite env s tr = Sum.inl o) :
    s.steps.viteCreate ≠ Status.done ∧ env.vite.success = false ∧
    o.exit = 1 ∧ o.state.steps.viteCreate = Status.failed ∧
    o.state.error = some env.vite.error ∧
    o.state.freshCreation = s.freshCreation ∧
    ∃ ext, o.trace = tr ++ ext ∧
      (∀ st, Event.exec st ∈ ext → st = StepName.viteCreate) ∧
      Event.cleanupDir ∈ ext ∧ Event.removeCheckpoint ∉ ext := by
  by_cases hd : s.steps.viteCreate = Status.done
  · rw [stepVite_skip env s tr hd] at h
    simp at h
  · cases hs : env.vite.success
    · rw [stepVite_fail env s tr hd hs] at h
      obtain rfl : (⟨1,
          { setStep s .viteCreate .failed with error := some env.vite.error },
          tr ++ [Event.exec .viteCreate, Event.cleanupDir]⟩ : Outcome) = o := by
        simpa using h
      refine ⟨hd, rfl, rfl, rfl, rfl, rfl,
        [Event.exec .viteCreate, Event.cleanupDir], rfl, ?_, by simp, by simp⟩
      intro st hst
      simpa using hst
    · rw [stepVite_ok env s tr hd hs] at h
      simp at h

theorem stepNpm_inr_spec (env : PipeEnv) (s : ScaffoldState) (tr : Trace)
    (s2 : ScaffoldState) (tr2 : Trace)
    (h : stepNpm env s tr = Sum.inr (s2, tr2)) :
    (s.steps.npmInstall = Status.done ∨ env.npm.success = true) ∧
    s2.steps.npmInstall = Status.done ∧
    s2.steps.viteCreate = s.steps.viteCreate ∧
    s2.steps.shadcnInit = s.steps.shadcnInit ∧
    s2.steps.componentInstall = s.steps.componentInstall ∧
    s2.steps.verification = s.steps.verification ∧
    s2.freshCreation = s.freshCreation ∧
    s2.components = s.components ∧
    s2.installedComponents = s.installedComponents ∧
    s2.failedComponents = s.failedComponents ∧
    ∃ ext, tr2 = tr ++ ext ∧
      (∀ st, Event.exec st ∈ ext → st = StepName.npmInstall) ∧
      Event.cleanupDir ∉ ext ∧ Event.removeCheckpoint ∉ ext ∧
      (s.steps.npmInstall = Status.done → ext = []) := by
  by_cases hd : s.steps.npmInstall = Status.done
  · rw [stepNpm_skip env s tr hd] at h
    obtain ⟨rfl, rfl⟩ : s = s2 ∧ tr = tr2 := by simpa using h
    exact ⟨Or.inl hd, hd, rfl, rfl, rfl, rfl, rfl, rfl, rfl, rfl,
      [], by simp, by simp, by simp, by simp, fun _ => rfl⟩
  · cases hs : env.npm.success
    · rw [stepNpm_fail env s tr hd hs] at h
      simp at h
    · rw [stepNpm_ok env s tr hd hs] at h
      obtain ⟨rfl, rfl⟩ :
          setStep (setStep s .npmInstall .running) .npmInstall .done = s2 ∧
          tr ++ [Event.persist (setStep s .npmInstall .running),
            Event.exec .npmInstall,
            Event.persist (setStep (setStep s .npmInstall .running)
              .npmInstall .done)] = tr2 := by
        simpa using h
      refine ⟨Or.inr rfl, rfl, rfl, rfl, rfl, rfl, rfl, rfl, rfl, rfl,
        [Event.persist (setStep s .npmInstall .running),
          Event.exec .npmInstall,
          Event.persist (setStep (setStep s .npmInstall .running)
            .npmInstall .done)],
        rfl, ?_, by simp, by simp, fun hdd => absurd hdd hd⟩
      intro st hst
      simpa using hst

theorem stepNpm_inl_spec (env : PipeEnv) (s : ScaffoldState) (tr : Trace)
    (o : Outcome) (h : stepNpm env s tr = Sum.inl o) :
    s.steps.npmInstall ≠ Status.done ∧ env.npm.success = false ∧
    o.exit = 1 ∧ o.state.steps.npmInstall = Status.failed ∧
    o.state.error = some env.npm.error ∧
    o.state.freshCreation = s.freshCreation ∧
    ∃ ext, o.trace = tr ++ ext ∧
      (∀ st, Event.exec st ∈ ext → st = StepName.npmInstall) ∧
      (Event.cleanupDir ∈ ext ↔ s.freshCreation = true) ∧
      Event.removeCheckpoint ∉ ext := by
  by_cases hd : s.steps.npmInstall = Status.done
  · rw [stepNpm_skip env s tr hd] at h
    simp at h
  · cases hs : env.npm.success
    · rw [stepNpm_fail env s tr hd hs] at h
      obtain rfl : (⟨1,
          { setStep (setStep s .npmInstall .running) .npmInstall .failed with
            error := some env.npm.error },
          (tr ++ [Event.persist (setStep s .npmInstall .running),
            Event.exec .npmInstall,
            Event.persist { setStep (setStep s .npmInstall .running)
              .npmInstall .failed with error := some env.npm.error }]) ++
            (if s.freshCreation then [Event.cleanupDir] else [])⟩ : Outcome)
          = o := by
        simpa using h
      refine ⟨hd, rfl, rfl, rfl, rfl, rfl,
        [Event.persist (setStep s .npmInstall .running),
          Event.exec .npmInstall,
          Event.persist { setStep (setStep s .npmInstall .running)
            .npmInstall .failed with error := some env.npm.error }] ++
          (if s.freshCreation then [Event.cleanupDir] else []),
        by rw [List.append_assoc], ?_, ?_, ?_⟩
      · intro st hst
        cases hf : s.freshCreation <;> simp [hf] at hst <;> simpa using hst
      · cases hf : s.freshCreation <;> simp [hf]
      · cases hf : s.freshCreation <;> simp [hf]
    · rw [stepNpm_ok env s tr hd hs] at h
      simp at h

theorem stepInit_inr_spec (env : PipeEnv) (s : ScaffoldState) (tr : Trace)
    (s2 : ScaffoldState) (tr2 : Trace)
    (h : stepInit env s tr = Sum.inr (s2, tr2)) :
    (s.steps.shadcnInit = Status.done ∨ env.init.success = true) ∧
    s2.steps.shadcnInit = Status.done ∧
    s2.steps.viteCreate = s.steps.viteCreate ∧
    s2.steps.npmInstall = s.steps.npmInstall ∧
    s2.steps.componentInstall = s.steps.componentInstall ∧
    s2.steps.verification = s.steps.verification ∧
    s2.freshCreation = s.freshCreation ∧
    s2.components = s.components ∧
    s2.installedComponents = s.installedComponents ∧
    s2.failedComponents = s.failedComponents ∧
    ∃ ext, tr2 = tr ++ ext ∧
      (∀ st, Event.exec st ∈ ext → st = StepName.shadcnInit) ∧
      Event.cleanupDir ∉ ext ∧ Event.removeCheckpoint ∉ ext ∧
      (s.steps.shadcnInit = Status.done → ext = []) := by
  by_cases hd : s.steps.shadcnInit = Status.done
  · rw [stepInit_skip env s tr hd] at h
    obtain ⟨rfl, rfl⟩ : s = s2 ∧ tr = tr2 := by simpa using h
    exact ⟨Or.inl hd, hd, rfl, rfl, rfl, rfl, rfl, rfl, rfl, rfl,
      [], by simp, by simp, by simp, by simp, fun _ => rfl⟩
  · cases hs : env.init.success
    · rw [stepInit_fail env s tr hd hs] at h
      simp at h
    · rw [stepInit_ok env s tr hd hs] at h
      obtain ⟨rfl, rfl⟩ :
          setStep (setStep s .shadcnInit .running) .shadcnInit .done = s2 ∧
          tr ++ [Event.persist (setStep s .shadcnInit .running),
            Event.exec .shadcnInit,
            Event.persist (setStep (setStep s .shadcnInit .running)
              .shadcnInit .done)] = tr2 := by
        simpa using h
      refine ⟨Or.inr rfl, rfl, rfl, rfl, rfl, rfl, rfl, rfl, rfl, rfl,
        [Event.persist (setStep s .shadcnInit .running),
          Event.exec .shadcnInit,
          Event.persist (setStep (setStep s .shadcnInit .running)
            .shadcnInit .done)],
        rfl, ?_, by simp, by simp, fun hdd => absurd hdd hd⟩
      intro st hst
      simpa using hst

theorem stepInit_inl_spec (env : PipeEnv) (s : ScaffoldState) (tr : Trace)
    (o : Outcome) (h : stepInit env s tr = Sum.inl o) :
    s.steps.shadcnInit ≠ Status.done ∧ env.init.success = false ∧
    o.exit = 1 ∧ o.state.steps.shadcnInit = Status.failed ∧
    o.state.error = some env.init.error ∧
    o.state.freshCreation = s.freshCreation ∧
    ∃ ext, o.trace = tr ++ ext ∧
      (∀ st, Event.exec st ∈ ext → st = StepName.shadcnInit) ∧
      (Event.cleanupDir ∈ ext ↔ s.freshCreation = true) ∧
      Event.removeCheckpoint ∉ ext := by
  by_cases hd : s.steps.shadcnInit = Status.done
  · rw [stepInit_skip env s tr hd] at h
    simp at h
  · cases hs : env.init.success
    · rw [stepInit_fail env s tr hd hs] at h
      obtain rfl : (⟨1,
          { setStep (setStep s .shadcnInit .running) .shadcnInit .failed with
            error := some env.init.error },
          (tr ++ [Event.persist (setStep s .shadcnInit .running),
            Event.exec .shadcnInit,
            Event.persist { setStep (setStep s .shadcnInit .running)
              .shadcnInit .failed with error := some env.init.error }]) ++
            (if s.freshCreation then [Event.cleanupDir] else [])⟩ : Outcome)
          = o := by
        simpa using h
      refine ⟨hd, rfl, rfl, rfl, rfl, rfl,
        [Event.persist (setStep s .shadcnInit .running),
          Event.exec .shadcnInit,
          Event.persist { setStep (setStep s .shadcnInit .running)
            .shadcnInit .failed with error := some env.init.error }] ++
          (if s.freshCreation then [Event.cleanupDir] else []),
        by rw [List.append_assoc], ?_, ?_, ?_⟩
      · intro st hst
        cases hf : s.freshCreation <;> simp [hf] at hst <;> simpa using hst
      · cases hf : s.freshCreation <;> simp [hf]
      · cases hf : s.freshCreation <;> simp [hf]
    · rw [stepInit_ok env s tr hd hs] at h
      simp at h

theorem finishVerify_spec (env : PipeEnv) (s : ScaffoldState) (tr : Trace) :
    (finishVerify env s tr).state.steps.viteCreate = s.steps.viteCreate ∧
    (finishVerify env s tr).state.steps.npmInstall = s.steps.npmInstall ∧
    (finishVerify env s tr).state.steps.shadcnInit = s.steps.shadcnInit ∧
    (finishVerify env s tr).state.steps.componentInstall =
      s.steps.componentInstall ∧
    (finishVerify env s tr).state.freshCreation = s.freshCreation ∧
    (finishVerify env s tr).state.installedComponents = s.installedComponents ∧
    (finishVerify env s tr).state.failedComponents = s.failedComponents ∧
    ((finishVerify env s tr).exit = 0 ∨ (finishVerify env s tr).exit = 1) ∧
    ((finishVerify env s tr).exit = 0 ↔
      (finishVerify env s tr).state.steps.verification = Status.done) ∧
    ∃ ext, (finishVerify env s tr).trace = tr ++ ext ∧
      (∀ st, Event.exec st ∈ ext → st = StepName.verification) ∧
      (s.steps.verification = Status.done → ext = [Event.removeCheckpoint]) ∧
      Event.cleanupDir ∉ ext ∧
      (Event.removeCheckpoint ∈ ext ↔ (finishVerify env s tr).exit = 0) := by
  by_cases hw : s.steps.verification = Status.done
  · have hrw : finishVerify env s tr = ⟨0, s, tr ++ [Event.removeCheckpoint]⟩ := by
      simp only [finishVerify, stepVerify_skip env s tr hw]
    rw [hrw]
    exact ⟨rfl, rfl, rfl, rfl, rfl, rfl, rfl, Or.inl rfl,
      ⟨fun _ => hw, fun _ => rfl⟩,
      [Event.removeCheckpoint], rfl, by simp, fun _ => rfl, by simp, by simp⟩
  · cases hv : (verifyProject env.fsExists s.installedComponents).valid
    · have hrw : finishVerify env s tr = ⟨1,
          { setStep (setStep s .verification .running) .verification .failed with
            error := some ("Verification failed. Missing: " ++
              String.intercalate ", "
                (verifyProject env.fsExists s.installedComponents).missing) },
          tr ++ [Event.persist (setStep s .verification .running),
            Event.exec .verification,
            Event.persist { setStep (setStep s .verification .running)
              .verification .failed with
              error := some ("Verification failed. Missing: " ++
                String.intercalate ", "
                  (verifyProject env.fsExists s.installedComponents).missing) }]⟩ := by
        simp only [finishVerify, stepVerify_fail env s tr hw hv]
      rw [hrw]
      refine ⟨rfl, rfl, rfl, rfl, rfl, rfl, rfl, Or.inr rfl,
        ⟨fun h0 => absurd h0 Nat.one_ne_zero, fun hdone => Status.noConfusion hdone⟩,
        [Event.persist (setStep s .verification .running),
          Event.exec .verification,
          Event.persist { setStep (setStep s .verification .running)
            .verification .failed with
            error := some ("Verification failed. Missing: " ++
              String.intercalate ", "
                (verifyProject env.fsExists s.installedComponents).missing) }],
        rfl, ?_, fun hd => absurd hd hw, by simp, by simp⟩
      intro st hst
      simpa using hst
    · have hrw : finishVerify env s tr = ⟨0,
          setStep (setStep s .verification .running) .verification .done,
          (tr ++ [Event.persist (setStep s .verification .running),
            Event.exec .verification,
            Event.persist (setStep (setStep s .verification .running)
              .verification .done)]) ++ [Event.removeCheckpoint]⟩ := by
        simp only [finishVerify, stepVerify_ok env s tr hw hv]
      rw [hrw]
      refine ⟨rfl, rfl, rfl, rfl, rfl, rfl, rfl, Or.inl rfl,
        ⟨fun _ => rfl, fun _ => rfl⟩,
        [Event.persist (setStep s .verification .running),
          Event.exec .verification,
          Event.persist (setStep (setStep s .verification .running)
            .verification .done),
          Event.removeCheckpoint],
        by simp, ?_, fun hd => absurd hd hw, by simp, by simp⟩
      intro st hst
      simpa using hst

theorem pipelineTail_spec (env : PipeEnv) (s : ScaffoldState) (tr : Trace) :
    (pipelineTail env s tr).state.steps.viteCreate = s.steps.viteCreate ∧
    (pipelineTail env s tr).state.steps.npmInstall = s.steps.npmInstall ∧
    (pipelineTail env s tr).state.steps.shadcnInit = s.steps.shadcnInit ∧
    (pipelineTail env s tr).state.steps.componentInstall = Status.done ∧
    (pipelineTail env s tr).state.freshCreation = s.freshCreation ∧
    ((pipelineTail env s tr).exit = 0 ∨ (pipelineTail env s tr).exit = 1) ∧
    ((pipelineTail env s tr).exit = 0 ↔
      (pipelineTail env s tr).state.steps.verification = Status.done) ∧
    ∃ ext, (pipelineTail env s tr).trace = tr ++ ext ∧
      (∀ st, Event.exec st ∈ ext →
        st = StepName.componentInstall ∨ st = StepName.verification) ∧
      (s.steps.componentInstall = Status.done →
        Event.exec StepName.componentInstall ∉ ext) ∧
      (s.steps.verification = Status.done →
        Event.exec StepName.verification ∉ ext) ∧
      Event.cleanupDir ∉ ext ∧
      (Event.removeCheckpoint ∈ ext ↔ (pipelineTail env s tr).exit = 0) := by
  by_cases hc : s.steps.componentInstall = Status.done
  · have hrw : pipelineTail env s tr = finishVerify env s tr := by
      simp only [pipelineTail, stepComponent_skip env s tr hc]
    rw [hrw]
    obtain ⟨h1, h2, h3, h4, h5, -, -, h6, h7, ext, hext, hexec, hvdone, hcl, hrm⟩ :=
      finishVerify_spec env s tr
    refine ⟨h1, h2, h3, h4.trans hc, h5, h6, h7, ext, hext,
      fun st hst => Or.inr (hexec st hst), ?_, ?_, hcl, hrm⟩
    · intro _ hin
      exact absurd (hexec _ hin) (by decide)
    · intro hd hin
      rw [hvdone hd] at hin
      simp at hin
  · have hrw : pipelineTail env s tr = finishVerify env
        { setStep (setStep s .componentInstall .running)
            .componentInstall .done with
          installedComponents := (installComponents env.install s.components
            componentInstallTimeoutMs).installed,
          failedComponents := (installComponents env.install s.components
            componentInstallTimeoutMs).failed }
        (tr ++ [Event.persist (setStep s .componentInstall .running),
          Event.exec .componentInstall,
          Event.persist { setStep (setStep s .componentInstall .running)
              .componentInstall .done with
            installedComponents := (installComponents env.install s.components
              componentInstallTimeoutMs).installed,
            failedComponents := (installComponents env.install s.components
              componentInstallTimeoutMs).failed }]) := by
      simp only [pipelineTail, stepComponent_run env s tr hc]
    rw [hrw]
    obtain ⟨h1, h2, h3, h4, h5, -, -, h6, h7, ext, hext, hexec, hvdone, hcl, hrm⟩ :=
      finishVerify_spec env _ _
    refine ⟨h1, h2, h3, h4, h5, h6, h7,
      [Event.persist (setStep s .componentInstall .running),
        Event.exec .componentInstall,
        Event.persist { setStep (setStep s .componentInstall .running)
            .componentInstall .done with
          installedComponents := (installComponents env.install s.components
            componentInstallTimeoutMs).installed,
          failedComponents := (installComponents env.install s.components
            componentInstallTimeoutMs).failed }] ++ ext,
      by rw [hext, List.append_assoc], ?_, fun hd => absurd hd hc, ?_, ?_, ?_⟩
    · intro st hst
      rcases List.mem_append.mp hst with hin | hin
      · left
        simpa using hin
      · exact Or.inr (hexec st hin)
    · intro hd hin
      rcases List.mem_append.mp hin with hin2 | hin2
      · simp at hin2
      · rw [hvdone hd] at hin2
        simp at hin2
    · intro hin
      rcases List.mem_append.mp hin with hin2 | hin2
      · simp at hin2
      · exact hcl hin2
    · constructor
      · intro hin
        rcases List.mem_append.mp hin with hin2 | hin2
        · simp at hin2
        · exact hrm.mp hin2
      · intro h0
        exact List.mem_append.mpr (Or.inr (hrm.mpr h0))

/-- Master characterization of one pipeline run: the exit code is 0 or
1; it is 0 exactly when every step of the final state is done; the
checkpoint is removed exactly on exit 0; a step that starts `done` is
never executed; and the project directory is cleaned exactly under
`cleanupCond`. -/
theorem runPipeline_spec (env : PipeEnv) (s0 : ScaffoldState) :
    ((runPipeline env s0).exit = 0 ∨ (runPipeline env s0).exit = 1) ∧
    ((runPipeline env s0).exit = 0 ↔
      allStepsDone (runPipeline env s0).state = true) ∧
    (Event.removeCheckpoint ∈ (runPipeline env s0).trace ↔
      (runPipeline env s0).exit = 0) ∧
    (∀ st, s0.steps.get st = Status.done →
      Event.exec st ∉ (runPipeline env s0).trace) ∧
    (Event.cleanupDir ∈ (runPipeline env s0).trace ↔ cleanupCond env s0) := by
  rcases hV : stepVite env s0 [] with o | ⟨s1, t1⟩
  · obtain ⟨hnd1, hvs1, hexit1, hfail1, -, -, ext1, hext1, hexo1, hclm1, hrm1⟩ :=
      stepVite_inl_spec env s0 [] o hV
    have hrun : runPipeline env s0 = o := by simp only [runPipeline, hV]
    rw [hrun, hext1]
    simp only [List.nil_append]
    refine ⟨Or.inr hexit1, ?_, ?_, ?_, ?_⟩
    · rw [hexit1]
      constructor
      · intro h0; cases h0
      · intro hall
        simp only [allStepsDone, decide_eq_true_eq] at hall
        have h1 := hall.1
        rw [hfail1] at h1
        cases h1
    · constructor
      · intro hin; exact absurd hin hrm1
      · intro h0; rw [hexit1] at h0; cases h0
    · intro st hst hin
      have hst2 := hexo1 st hin
      subst hst2
      exact hnd1 hst
    · exact ⟨fun _ => Or.inl ⟨hnd1, hvs1⟩, fun _ => hclm1⟩
  · obtain ⟨hVpass, hvd1, hn1, hi1, hc1, hw1, hfr1, -, -, -,
      ext1, hext1, hexo1, hcl1, hrm1, hskip1⟩ := stepVite_inr_spec env s0 [] s1 t1 hV
    rcases hN : stepNpm env s1 t1 with o | ⟨s2, t2⟩
    · obtain ⟨hnd2, hns2, hexit2, hfail2, -, hfre2, ext2, hext2, hexo2, hclif2, hrm2⟩ :=
        stepNpm_inl_spec env s1 t1 o hN
      have hrun : runPipeline env s0 = o := by simp only [runPipeline, hV, hN]
      rw [hrun, hext2, hext1]
      simp only [List.nil_append, List.mem_append]
      refine ⟨Or.inr hexit2, ?_, ?_, ?_, ?_⟩
      · rw [hexit2]
        constructor
        · intro h0; cases h0
        · intro hall
          simp only [allStepsDone, decide_eq_true_eq] at hall
          have h1 := hall.2.1
          rw [hfail2] at h1
          cases h1
      · constructor
        · rintro (hin | hin)
          · exact absurd hin hrm1
          · exact absurd hin hrm2
        · intro h0; rw [hexit2] at h0; cases h0
      · intro st hst hin
        rcases hin with hin | hin
        · have hst2 := hexo1 st hin
          subst hst2
          rw [hskip1 hst] at hin
          cases hin
        · have hst2 := hexo2 st hin
          subst hst2
          exact hnd2 (hn1.trans hst)
      · constructor
        · rintro (hin | hin)
          · exact absurd hin hcl1
          · refine Or.inr (Or.inl ⟨hVpass, ?_, hns2, ?_⟩)
            · intro hdd; exact hnd2 (hn1.trans hdd)
            · rw [← hfr1]; exact hclif2.mp hin
        · rintro (⟨hnd, hvs⟩ | ⟨-, -, hns, hf⟩ | ⟨-, hnpass, -, -, -⟩)
          · rcases hVpass with hdd | htrue
            · exact absurd hdd hnd
            · rw [htrue] at hvs; cases hvs
          · refine Or.inr (hclif2.mpr ?_)
            rw [hfr1]; exact hf
          · rcases hnpass with hdd | htrue
            · exact absurd (hn1.trans hdd) hnd2
            · rw [htrue] at hns2; cases hns2
    · obtain ⟨hNpass, hnd2eq, hv2, hi2, hc2, hw2, hfr2, -, -, -,
        ext2, hext2, hexo2, hcl2, hrm2, hskip2⟩ := stepNpm_inr_spec env s1 t1 s2 t2 hN
      rcases hI : stepInit env s2 t2 with o | ⟨s3, t3⟩
      · obtain ⟨hnd3, his3, hexit3, hfail3, -, hfre3, ext3, hext3, hexo3, hclif3, hrm3⟩ :=
          stepInit_inl_spec env s2 t2 o hI
        have hrun : runPipeline env s0 = o := by simp only [runPipeline, hV, hN, hI]
        rw [hrun, hext3, hext2, hext1]
        simp only [List.nil_append, List.mem_append]
        refine ⟨Or.inr hexit3, ?_, ?_, ?_, ?_⟩
        · rw [hexit3]
          constructor
          · intro h0; cases h0
          · intro hall
            simp only [allStepsDone, decide_eq_true_eq] at hall
            have h1 := hall.2.2.1
            rw [hfail3] at h1
            cases h1
        · constructor
          · rintro ((hin | hin) | hin)
            · exact absurd hin hrm1
            · exact absurd hin hrm2
            · exact absurd hin hrm3
          · intro h0; rw [hexit3] at h0; cases h0
        · intro st hst hin
          rcases hin with (hin | hin) | hin
          · have hst2 := hexo1 st hin
            subst hst2
            rw [hskip1 hst] at hin
            cases hin
          · have hst2 := hexo2 st hin
            subst hst2
            rw [hskip2 (hn1.trans hst)] at hin
            cases hin
          · have hst2 := hexo3 st hin
            subst hst2
            exact hnd3 (hi2.trans (hi1.trans hst))
        · constructor
          · rintro ((hin | hin) | hin)
            · exact absurd hin hcl1
            · exact absurd hin hcl2
            · refine Or.inr (Or.inr ⟨hVpass, ?_, ?_, his3, ?_⟩)
              · rcases hNpass with hdd | htrue
                · exact Or.inl (hn1.symm.trans hdd)
                · exact Or.inr htrue
              · intro hdd; exact hnd3 (hi2.trans (hi1.trans hdd))
              · rw [← hfr1, ← hfr2]; exact hclif3.mp hin
          · rintro (⟨hnd, hvs⟩ | ⟨-, hnd', hns, -⟩ | ⟨-, -, -, his, hf⟩)
            · rcases hVpass with hdd | htrue
              · exact absurd hdd hnd
              · rw [htrue] at hvs; cases hvs
            · rcases hNpass with hdd | htrue
              · exact absurd (hn1.symm.trans hdd) hnd'
              · rw [htrue] at hns; cases hns
            · refine Or.inr (hclif3.mpr ?_)
              rw [hfr2, hfr1]; exact hf
      · obtain ⟨hIpass, hid3, hv3, hn3, hc3, hw3, hfr3, -, -, -,
          ext3, hext3, hexo3, hcl3, hrm3, hskip3⟩ := stepInit_inr_spec env s2 t2 s3 t3 hI
        have hrun : runPipeline env s0 = pipelineTail env s3 t3 := by
          simp only [runPipeline, hV, hN, hI]
        rw [hrun]
        obtain ⟨q1, q2, q3, q4, q5, q6, q7, ext4, hext4, hexo4, hnc4, hnv4, hcl4, hrm4⟩ :=
          pipelineTail_spec env s3 t3
        have htr : (pipelineTail env s3 t3).trace =
            ((ext1 ++ ext2) ++ ext3) ++ ext4 := by
          rw [hext4, hext3, hext2, hext1]
          simp
        rw [htr]
        simp only [List.mem_append]
        have hvtop : s3.steps.viteCreate = Status.done :=
          hv3.trans (hv2.trans hvd1)
        have hntop : s3.steps.npmInstall = Status.done :=
          hn3.trans hnd2eq
        refine ⟨q6, ?_, ?_, ?_, ?_⟩
        · constructor
          · intro h0
            simp only [allStepsDone, decide_eq_true_eq]
            exact ⟨q1.trans hvtop, q2.trans hntop, q3.trans hid3, q4,
              q7.mp h0⟩
          · intro hall
            simp only [allStepsDone, decide_eq_true_eq] at hall
            exact q7.mpr hall.2.2.2.2
        · constructor
          · rintro (((hin | hin) | hin) | hin)
            · exact absurd hin hrm1
            · exact absurd hin hrm2
            · exact absurd hin hrm3
            · exact hrm4.mp hin
          · intro h0
            exact Or.inr (hrm4.mpr h0)
        · intro st hst hin
          rcases hin with ((hin | hin) | hin) | hin
          · have hst2 := hexo1 st hin
            subst hst2
            rw [hskip1 hst] at hin
            cases hin
          · have hst2 := hexo2 st hin
            subst hst2
            rw [hskip2 (hn1.trans hst)] at hin
            cases hin
          · have hst2 := hexo3 st hin
            subst hst2
            rw [hskip3 (hi2.trans (hi1.trans hst))] at hin
            cases hin
          · rcases hexo4 st hin with hst2 | hst2
            · subst hst2
              exact hnc4 (hc3.trans (hc2.trans (hc1.trans hst))) hin
            · subst hst2
              exact hnv4 (hw3.trans (hw2.trans (hw1.trans hst))) hin
        · constructor
          · rintro (((hin | hin) | hin) | hin)
            · exact absurd hin hcl1
            · exact absurd hin hcl2
            · exact absurd hin hcl3
            · exact absurd hin hcl4
          · rintro (⟨hnd, hvs⟩ | ⟨-, hnd', hns, -⟩ | ⟨-, -, hnd', his, -⟩)
            · rcases hVpass with hdd | htrue
              · exact absurd hdd hnd
              · rw [htrue] at hvs; cases hvs
            · rcases hNpass with hdd | htrue
              · exact absurd (hn1.symm.trans hdd) hnd'
              · rw [htrue] at hns; cases hns
            · rcases hIpass with hdd | htrue
              · exact absurd ((hi2.trans hi1).symm.trans hdd) hnd'
              · rw [htrue] at his; cases his

/-! ## Properties of the set-based de-duplication -/

theorem jsSetDedupAux_mem (l : List String) :
    ∀ (seen : List String) (a : String),
      a ∈ jsSetDedupAux l seen ↔ (a ∈ l ∧ a ∉ seen) := by
  induction l with
  | nil => intro seen a; simp [jsSetDedupAux]
  | cons b l ih =>
    intro seen a
    by_cases hb : b ∈ seen
    · simp only [jsSetDedupAux, if_pos hb]
      rw [ih]
      constructor
      · rintro ⟨h1, h2⟩
        exact ⟨List.mem_cons_of_mem b h1, h2⟩
      · rintro ⟨h1, h2⟩
        rcases List.mem_cons.mp h1 with rfl | h1
        · exact absurd hb h2
        · exact ⟨h1, h2⟩
    · simp only [jsSetDedupAux, if_neg hb]
      constructor
      · intro h
        rcases List.mem_cons.mp h with rfl | h
        · exact ⟨List.mem_cons_self _ _, hb⟩
        · rw [ih] at h
          obtain ⟨h1, h2⟩ := h
        

          exact ⟨List.mem_cons_of_mem _ h1,
            fun hs => h2 (List.mem_cons_of_mem _ hs)⟩
      · rintro ⟨h1, h2⟩
        rcases List.mem_cons.mp h1 with rfl | h1
        · exact List.mem_cons_self _ _
        · by_cases hab : a = b
          · subst hab
            exact List.mem_cons_self _ _
          · apply List.mem_cons_of_mem
            rw [ih]
            refine ⟨h1, fun hs => ?_⟩
            rcases List.mem_cons.mp hs with h | h
            · exact hab h
            · exact h2 h

theorem jsSetDedupAux_nodup (l : List String) :
    ∀ seen, (jsSetDedupAux l seen).Nodup := by
  induction l with
  | nil => intro seen; simp [jsSetDedupAux]
  | cons b l ih =>
    intro seen
    by_cases hb : b ∈ seen
    · simp only [jsSetDedupAux, if_pos hb]
      exact ih seen
    · simp only [jsSetDedupAux, if_neg hb]
      refine List.nodup_cons.mpr ⟨fun hmem => ?_, ih (b :: seen)⟩
      rw [jsSetDedupAux_mem] at hmem
      exact hmem.2 (List.mem_cons_self _ _)

theorem jsSetDedup_mem (l : List String) (a : String) :
    a ∈ jsSetDedup l ↔ a ∈ l := by
  simp [jsSetDedup, jsSetDedupAux_mem]

theorem jsSetDedup_nodup (l : List String) : (jsSetDedup l).Nodup :=
  jsSetDedupAux_nodup l []

/-- The de-duplicated list has exactly one entry per distinct item. -/
theorem jsSetDedup_length_eq (l : List String) :
    (jsSetDedup l).length = l.dedup.length := by
  have h1 : (jsSetDedup l).toFinset = l.toFinset := by
    ext a
    simp [List.mem_toFinset, jsSetDedup_mem]
  have h2 := List.toFinset_card_of_nodup (jsSetDedup_nodup l)
  have h3 := List.card_toFinset l
  rw [← h2, h1, h3]

/-- The source's duplicate test `unique.size !== components.length`
holds exactly on lists with duplicates. -/
theorem jsSetDedup_length_eq_iff (l : List String) :
    (jsSetDedup l).length = l.length ↔ l.Nodup := by
  constructor
  · intro h
    rw [jsSetDedup_length_eq] at h
    have hsub := List.dedup_sublist l
    have heq := hsub.eq_of_length h
    rw [← heq]
    exact List.nodup_dedup l
  · intro h
    rw [jsSetDedup_length_eq, List.dedup_eq_self.mpr h]

/-- Claim C2: the exit code is 0 exactly when validation passed and all
five steps ended `done` (the success-with-warnings case included, since
nothing about `failedComponents` is required), the checkpoint is removed
exactly in that case, and the interrupt handler always exits non-zero
without removing the checkpoint. -/
theorem exit_zero_iff_success :
    (∀ (projectName template : String) (components : List String)
      (vfs : ValidatorFs) (env : PipeEnv),
      ((runMain projectName template components vfs env).exit = 0 ↔
        ((validateInputs projectName template components vfs).valid = true ∧
          allStepsDone (runMain projectName template components vfs env).state
            = true)) ∧
      (Event.removeCheckpoint ∈
          (runMain projectName template components vfs env).trace ↔
        (runMain projectName template components vfs env).exit = 0)) ∧
    (∀ (s : ScaffoldState) (signal : String) (persistOk : Bool),
      (handleSignal (some s) signal persistOk).exit = 1 ∧
      (handleSignal (some s) signal persistOk).removedCheckpoint = false) := by
  constructor
  · intro pn tp comps vfs env
    cases hv : (validateInputs pn tp comps vfs).valid
    · have hrw : runMain pn tp comps vfs env = ⟨1,
          createInitialState pn tp
            (validateInputs pn tp comps vfs).resolvedComponents, []⟩ := by
        simp [runMain, hv]
      rw [hrw]
      refine ⟨⟨fun h0 => absurd h0 Nat.one_ne_zero,
        fun hpair => ?_⟩, by simp⟩
      cases hpair.1
    · have hrw : runMain pn tp comps vfs env = runPipeline env
          (match (validateInputs pn tp comps vfs).existingState with
           | some st => { st with freshCreation := false }
           | none => createInitialState pn tp
               (validateInputs pn tp comps vfs).resolvedComponents) := by
        simp [runMain, hv]
      rw [hrw]
      obtain ⟨-, hB, hC, -, -⟩ := runPipeline_spec env
        (match (validateInputs pn tp comps vfs).existingState with
         | some st => { st with freshCreation := false }
         | none => createInitialState pn tp
             (validateInputs pn tp comps vfs).resolvedComponents)
      exact ⟨⟨fun h0 => ⟨rfl, hB.mp h0⟩, fun hpair => hB.mpr hpair.2⟩, hC⟩
  · intro s sig pOk
    exact ⟨rfl, rfl⟩

/-- Claim C9: on a termination signal with a current state set, every
`running` step is relabeled `failed` (other statuses untouched), the
interruption message is attached, the persist is attempted (its success
is exactly the environment's `persistOk`, and the exit is unaffected by
it), the process exits with the failure code, no cleanup is invoked and
the checkpoint is never removed — for every state, fresh or not. -/
theorem interrupt_handler_spec (s : ScaffoldState) (signal : String)
    (persistOk : Bool) :
    ∃ s2, (handleSignal (some s) signal persistOk).state = some s2 ∧
      (∀ st, s2.steps.get st =
        (if s.steps.get st = Status.running then Status.failed
         else s.steps.get st)) ∧
      s2.error = some ("Interrupted by " ++ signal) ∧
      (handleSignal (some s) signal persistOk).persisted = persistOk ∧
      (handleSignal (some s) signal persistOk).exit = 1 ∧
      (handleSignal (some s) signal persistOk).cleanupInvoked = false ∧
      (handleSignal (some s) signal persistOk).removedCheckpoint = false := by
  refine ⟨_, rfl, ?_, rfl, rfl, rfl, rfl, rfl⟩
  intro st
  cases st <;> rfl

/-- Claim C10: the componentInstall step always ends `done` — its state
update marks it done whatever the installer returned, and the snapshot
persisted right after the step (the final trace event the step emits)
records that `done` status; on a later resume with the step recorded
`done`, the installer is never executed again, so `failedComponents`
are not re-attempted. -/
theorem componentInstall_always_done :
    (∀ (env : PipeEnv) (s : ScaffoldState) (tr : Trace),
      s.steps.componentInstall ≠ Status.done →
      (stepComponent env s tr).1.steps.componentInstall = Status.done ∧
      ∃ sR, (stepComponent env s tr).2 =
          tr ++ [Event.persist sR, Event.exec StepName.componentInstall,
            Event.persist (stepComponent env s tr).1] ∧
        sR.steps.componentInstall = Status.running) ∧
    (∀ (env : PipeEnv) (s0 : ScaffoldState),
      s0.steps.get StepName.componentInstall = Status.done →
      Event.exec StepName.componentInstall ∉ (runPipeline env s0).trace) := by
  constructor
  · intro env s tr h
    have hrw := stepComponent_run env s tr h
    refine ⟨?_, setStep s .componentInstall .running, ?_, rfl⟩
    · rw [hrw]; rfl
    · rw [hrw]
  · intro env s0 h
    exact (runPipeline_spec env s0).2.2.2.1 StepName.componentInstall h

/-- Witness for `componentInstall_always_done`: a fresh state whose
installer fails every single item still ends with the step done, and a
state with the step already done never executes the installer. -/
theorem componentInstall_always_done_witness :
    (resumedViteIncomplete.steps.componentInstall ≠ Status.done ∧
      (stepComponent envViteFail resumedViteIncomplete []).1.steps.componentInstall
        = Status.done) ∧
    (resumedAfterBootstrap.steps.get StepName.componentInstall ≠ Status.done) ∧
    ((createInitialState "a" "minimal" []).steps.get StepName.componentInstall
        = Status.done → False) ∧
    ({ resumedAfterBootstrap with
        steps := ⟨.done, .done, .done, .done, .pending⟩ }.steps.get
          StepName.componentInstall = Status.done ∧
      Event.exec StepName.componentInstall ∉
        (runPipeline envAllOk { resumedAfterBootstrap with
          steps := ⟨.done, .done, .done, .done, .pending⟩ }).trace) := by
  refine ⟨⟨by decide, (componentInstall_always_done.1 envViteFail
    resumedViteIncomplete [] (by decide)).1⟩, by decide, by decide,
    by decide, componentInstall_always_done.2 envAllOk
      { resumedAfterBootstrap with
        steps := ⟨.done, .done, .done, .done, .pending⟩ } (by decide)⟩

/-- Claim C7 (amended: a bootstrap failure cleans up unconditionally —
index.js line 260 has no `freshCreation` guard — while dependency-install
and tool-init failures clean up exactly when `freshCreation` is true):
full characterization of when the project directory is cleaned, plus the
two scenario directions — a resumed run whose bootstrap step is already
done never deletes the directory, and a fresh run whose bootstrap fails
always does. -/
theorem cleanup_scope :
    (∀ (env : PipeEnv) (s0 : ScaffoldState),
      Event.cleanupDir ∈ (runPipeline env s0).trace ↔ cleanupCond env s0) ∧
    (∀ (env : PipeEnv) (s0 : ScaffoldState),
      s0.freshCreation = false → s0.steps.viteCreate = Status.done →
      Event.cleanupDir ∉ (runPipeline env s0).trace) ∧
    (∀ (env : PipeEnv) (s0 : ScaffoldState),
      s0.freshCreation = true → s0.steps.viteCreate ≠ Status.done →
      env.vite.success = false →
      Event.cleanupDir ∈ (runPipeline env s0).trace) := by
  refine ⟨fun env s0 => (runPipeline_spec env s0).2.2.2.2, ?_, ?_⟩
  · intro env s0 hfr hvd hin
    rcases (runPipeline_spec env s0).2.2.2.2.mp hin with
      ⟨hnd, -⟩ | ⟨-, -, -, hf⟩ | ⟨-, -, -, -, hf⟩
    · exact hnd hvd
    · rw [hfr] at hf; cases hf
    · rw [hfr] at hf; cases hf
  · intro env s0 _ hnd hvs
    exact (runPipeline_spec env s0).2.2.2.2.mpr (Or.inl ⟨hnd, hvs⟩)

/-- Witness for `cleanup_scope`: a resumed state with bootstrap done
never triggers cleanup, whatever later steps do (here: init fails). -/
theorem cleanup_scope_witness :
    resumedAfterBootstrap.freshCreation = false ∧
    resumedAfterBootstrap.steps.viteCreate = Status.done ∧
    Event.cleanupDir ∉ (runPipeline
      { envViteFail with vite := ⟨true, ""⟩, init := ⟨false, "shadcn init failed with exit code 1"⟩ }
      resumedAfterBootstrap).trace := by
  exact ⟨rfl, rfl, cleanup_scope.2.1
    { envViteFail with vite := ⟨true, ""⟩, init := ⟨false, "shadcn init failed with exit code 1"⟩ }
    resumedAfterBootstrap rfl rfl⟩

/-- Counterexample to claim C7 as stated: on a resumed run
(`freshCreation = false`) whose checkpoint still has the bootstrap step
pending, a bootstrap failure invokes the directory cleanup anyway
(index.js line 260 calls `cleanup(projectPath)` unconditionally), so
"deleted only if freshCreation is true" fails. -/
theorem cleanup_scope_counterexample :
    resumedViteIncomplete.freshCreation = false ∧
    Event.cleanupDir ∈
      (runPipeline envViteFail resumedViteIncomplete).trace := by
  constructor
  · rfl
  · exact (runPipeline_spec envViteFail resumedViteIncomplete).2.2.2.2.mpr
      (Or.inl ⟨by decide, rfl⟩)

/-- Claim C5: a step recorded `done` in the loaded checkpoint is never
executed again; a checkpoint with everything done produces no effect
beyond removing the checkpoint; and resuming a checkpoint with bootstrap
done and the rest pending starts directly with the dependency-install
step (first events: its `running` persist and its execution), never
invoking the bootstrap command. -/
theorem doneSteps_skipped :
    (∀ (env : PipeEnv) (s0 : ScaffoldState) (st : StepName),
      s0.steps.get st = Status.done →
      Event.exec st ∉ (runPipeline env s0).trace) ∧
    (∀ (env : PipeEnv) (s0 : ScaffoldState), allStepsDone s0 = true →
      runPipeline env s0 = ⟨0, s0, [Event.removeCheckpoint]⟩) ∧
    (∀ env : PipeEnv,
      Event.exec StepName.viteCreate ∉
        (runPipeline env resumedAfterBootstrap).trace ∧
      ∃ rest, (runPipeline env resumedAfterBootstrap).trace =
        Event.persist (setStep resumedAfterBootstrap .npmInstall .running) ::
          Event.exec StepName.npmInstall :: rest) := by
  refine ⟨fun env s0 st h => (runPipeline_spec env s0).2.2.2.1 st h, ?_, ?_⟩
  · intro env s0 hall
    simp only [allStepsDone, decide_eq_true_eq] at hall
    obtain ⟨h1, h2, h3, h4, h5⟩ := hall
    simp [runPipeline, stepVite_skip env s0 [] h1, stepNpm_skip env s0 [] h2,
      stepInit_skip env s0 [] h3, pipelineTail, stepComponent_skip env s0 [] h4,
      finishVerify, stepVerify_skip env s0 [] h5]
  · intro env
    refine ⟨(runPipeline_spec env resumedAfterBootstrap).2.2.2.1
      StepName.viteCreate rfl, ?_⟩
    have hndN : resumedAfterBootstrap.steps.npmInstall ≠ Status.done := by decide
    have hV := stepVite_skip env resumedAfterBootstrap [] rfl
    cases hs : env.npm.success
    · have hN := stepNpm_fail env resumedAfterBootstrap [] hndN hs
      have hrun : runPipeline env resumedAfterBootstrap = ⟨1,
          { setStep (setStep resumedAfterBootstrap .npmInstall .running)
              .npmInstall .failed with error := some env.npm.error },
          ([] ++ [Event.persist (setStep resumedAfterBootstrap .npmInstall .running),
            Event.exec .npmInstall,
            Event.persist { setStep (setStep resumedAfterBootstrap .npmInstall .running)
              .npmInstall .failed with error := some env.npm.error }]) ++
            (if resumedAfterBootstrap.freshCreation then [Event.cleanupDir] else [])⟩ := by
        simp only [runPipeline, hV, hN]
      rw [hrun]
      exact ⟨[Event.persist { setStep (setStep resumedAfterBootstrap .npmInstall .running)
          .npmInstall .failed with error := some env.npm.error }] ++
          (if resumedAfterBootstrap.freshCreation then [Event.cleanupDir] else []),
        by simp⟩
    · have hN := stepNpm_ok env resumedAfterBootstrap [] hndN hs
      rcases hI : stepInit env
          (setStep (setStep resumedAfterBootstrap .npmInstall .running) .npmInstall .done)
          ([] ++ [Event.persist (setStep resumedAfterBootstrap .npmInstall .running),
            Event.exec .npmInstall,
            Event.persist (setStep (setStep resumedAfterBootstrap .npmInstall .running)
              .npmInstall .done)]) with o | ⟨s3, t3⟩
      · obtain ⟨-, -, -, -, -, -, ext3, hext3, -, -, -⟩ :=
          stepInit_inl_spec env _ _ o hI
        have hrun : runPipeline env resumedAfterBootstrap = o := by
          simp only [runPipeline, hV, hN, hI]
        rw [hrun, hext3]
        exact ⟨[Event.persist (setStep (setStep resumedAfterBootstrap .npmInstall .running)
            .npmInstall .done)] ++ ext3, by simp⟩
      · obtain ⟨-, -, -, -, -, -, -, -, -, -, ext3, hext3, -, -, -, -⟩ :=
          stepInit_inr_spec env _ _ s3 t3 hI
        have hrun : runPipeline env resumedAfterBootstrap = pipelineTail env s3 t3 := by
          simp only [runPipeline, hV, hN, hI]
        obtain ⟨-, -, -, -, -, -, -, ext4, hext4, -, -, -, -, -⟩ :=
          pipelineTail_spec env s3 t3
        rw [hrun, hext4, hext3]
        exact ⟨([Event.persist (setStep (setStep resumedAfterBootstrap .npmInstall .running)
            .npmInstall .done)] ++ ext3) ++ ext4, by simp⟩

/-- Witness for `doneSteps_skipped`: the resumed state skips the done
bootstrap step, and an all-done checkpoint only removes itself. -/
theorem doneSteps_skipped_witness :
    (resumedAfterBootstrap.steps.get StepName.viteCreate = Status.done ∧
      Event.exec StepName.viteCreate ∉
        (runPipeline envWarn resumedAfterBootstrap).trace) ∧
    (allStepsDone { resumedAfterBootstrap with
        steps := ⟨.done, .done, .done, .done, .done⟩ } = true ∧
      runPipeline envWarn { resumedAfterBootstrap with
          steps := ⟨.done, .done, .done, .done, .done⟩ } =
        ⟨0, { resumedAfterBootstrap with
            steps := ⟨.done, .done, .done, .done, .done⟩ },
          [Event.removeCheckpoint]⟩) := by
  exact ⟨⟨rfl, doneSteps_skipped.1 envWarn resumedAfterBootstrap
      StepName.viteCreate rfl⟩,
    ⟨by decide, doneSteps_skipped.2.1 envWarn _ (by decide)⟩⟩

/-- Claim C6 (amended: true of every step except the bootstrap step,
which executes with no prior `running` mark or persist because the
project directory does not exist yet): each non-bootstrap step not
already done first persists a snapshot with the step `running`, then
executes its action, then persists a snapshot with the step `done`, or
`failed` with the error attached. -/
theorem nonBootstrapSteps_runThenPersist (env : PipeEnv) (s : ScaffoldState)
    (tr : Trace) :
    (s.steps.npmInstall ≠ Status.done →
      ∃ sR sF rest, resTrace (stepNpm env s tr) =
          tr ++ [Event.persist sR, Event.exec StepName.npmInstall,
            Event.persist sF] ++ rest ∧
        sR.steps.npmInstall = Status.running ∧
        ((env.npm.success = true ∧ sF.steps.npmInstall = Status.done) ∨
         (env.npm.success = false ∧ sF.steps.npmInstall = Status.failed ∧
          sF.error = some env.npm.error))) ∧
    (s.steps.shadcnInit ≠ Status.done →
      ∃ sR sF rest, resTrace (stepInit env s tr) =
          tr ++ [Event.persist sR, Event.exec StepName.shadcnInit,
            Event.persist sF] ++ rest ∧
        sR.steps.shadcnInit = Status.running ∧
        ((env.init.success = true ∧ sF.steps.shadcnInit = Status.done) ∨
         (env.init.success = false ∧ sF.steps.shadcnInit = Status.failed ∧
          sF.error = some env.init.error))) ∧
    (s.steps.componentInstall ≠ Status.done →
      ∃ sR, (stepComponent env s tr).2 =
          tr ++ [Event.persist sR, Event.exec StepName.componentInstall,
            Event.persist (stepComponent env s tr).1] ∧
        sR.steps.componentInstall = Status.running ∧
        (stepComponent env s tr).1.steps.componentInstall = Status.done) ∧
    (s.steps.verification ≠ Status.done →
      ∃ sR sF, resTrace (stepVerify env s tr) =
          tr ++ [Event.persist sR, Event.exec StepName.verification,
            Event.persist sF] ∧
        sR.steps.verification = Status.running ∧
        (((verifyProject env.fsExists s.installedComponents).valid = true ∧
          sF.steps.verification = Status.done) ∨
         ((verifyProject env.fsExists s.installedComponents).valid = false ∧
          sF.steps.verification = Status.failed ∧
          sF.error = some ("Verification failed. Missing: " ++
            String.intercalate ", "
              (verifyProject env.fsExists s.installedComponents).missing)))) := by
  refine ⟨?_, ?_, ?_, ?_⟩
  · intro h
    cases hs : env.npm.success
    · refine ⟨setStep s .npmInstall .running,
        { setStep (setStep s .npmInstall .running) .npmInstall .failed with
          error := some env.npm.error },
        if s.freshCreation then [Event.cleanupDir] else [],
        ?_, rfl, Or.inr ⟨rfl, rfl, rfl⟩⟩
      rw [stepNpm_fail env s tr h hs]
      simp [resTrace]
    · refine ⟨setStep s .npmInstall .running,
        setStep (setStep s .npmInstall .running) .npmInstall .done, [],
        ?_, rfl, Or.inl ⟨rfl, rfl⟩⟩
      rw [stepNpm_ok env s tr h hs]
      simp [resTrace]
  · intro h
    cases hs : env.init.success
    · refine ⟨setStep s .shadcnInit .running,
        { setStep (setStep s .shadcnInit .running) .shadcnInit .failed with
          error := some env.init.error },
        if s.freshCreation then [Event.cleanupDir] else [],
        ?_, rfl, Or.inr ⟨rfl, rfl, rfl⟩⟩
      rw [stepInit_fail env s tr h hs]
      simp [resTrace]
    · refine ⟨setStep s .shadcnInit .running,
        setStep (setStep s .shadcnInit .running) .shadcnInit .done, [],
        ?_, rfl, Or.inl ⟨rfl, rfl⟩⟩
      rw [stepInit_ok env s tr h hs]
      simp [resTrace]
  · intro h
    have hrw := stepComponent_run env s tr h
    refine ⟨setStep s .componentInstall .running, ?_, rfl, ?_⟩
    · rw [hrw]
    · rw [hrw]; rfl
  · intro h
    cases hv : (verifyProject env.fsExists s.installedComponents).valid
    · refine ⟨setStep s .verification .running,
        { setStep (setStep s .verification .running) .verification .failed with
          error := some ("Verification failed. Missing: " ++
            String.intercalate ", "
              (verifyProject env.fsExists s.installedComponents).missing) },
        ?_, rfl, Or.inr ⟨rfl, rfl, rfl⟩⟩
      rw [stepVerify_fail env s tr h hv]
      simp [resTrace]
    · refine ⟨setStep s .verification .running,
        setStep (setStep s .verification .running) .verification .done,
        ?_, rfl, Or.inl ⟨rfl, rfl⟩⟩
      rw [stepVerify_ok env s tr h hv]
      simp [resTrace]

/-- Witness for `nonBootstrapSteps_runThenPersist` at the resumed
checkpoint with every command succeeding. -/
theorem nonBootstrapSteps_runThenPersist_witness :
    resumedAfterBootstrap.steps.npmInstall ≠ Status.done ∧
    (∃ sR sF rest, resTrace (stepNpm envAllOk resumedAfterBootstrap []) =
        [] ++ [Event.persist sR, Event.exec StepName.npmInstall,
          Event.persist sF] ++ rest ∧
      sR.steps.npmInstall = Status.running ∧
      ((envAllOk.npm.success = true ∧ sF.steps.npmInstall = Status.done) ∨
       (envAllOk.npm.success = false ∧ sF.steps.npmInstall = Status.failed ∧
        sF.error = some envAllOk.npm.error))) := by
  exact ⟨by decide,
    (nonBootstrapSteps_runThenPersist envAllOk resumedAfterBootstrap []).1
      (by decide)⟩

/-- Counterexample to claim C6 as stated over every step: on a fresh run
the bootstrap step (viteCreate) is not done and is executed, yet no
snapshot with it `running` is ever persisted before its execution — the
very first trace event is already its execution (index.js line 253:
state cannot be saved before the project directory exists). -/
theorem bootstrap_runsWithoutRunningPersist :
    freshMinimal.steps.viteCreate ≠ Status.done ∧
    Event.exec StepName.viteCreate ∈
      (runPipeline envAllOk freshMinimal).trace ∧
    runningPersistBeforeExec StepName.viteCreate
      (runPipeline envAllOk freshMinimal).trace = false := by
  decide

/-- Core of the duplicate-rejection property for in-range custom lists
(non-empty, at most 20 items). -/
theorem validateInputs_custom_dup_core (projectName : String)
    (comps : List String) (vfs : ValidatorFs)
    (hne : comps ≠ []) (hlen : comps.length ≤ 20) (hnd : ¬ comps.Nodup) :
    duplicateErrorMsg ∈
      (validateInputs projectName "custom" comps vfs).errors ∧
    (validateInputs projectName "custom" comps vfs).resolvedComponents.length
      = comps.dedup.length ∧
    (validateInputs projectName "custom" comps vfs).valid = false := by
  have hie : comps.isEmpty = false := by
    cases comps
    · exact absurd rfl hne
    · rfl
  have hgt : ¬ (20 < comps.length) := not_lt.mpr hlen
  have hdup : (jsSetDedup comps).length ≠ comps.length :=
    fun he => hnd ((jsSetDedup_length_eq_iff comps).mp he)
  have hmem : duplicateErrorMsg ∈
      (validateInputs projectName "custom" comps vfs).errors := by
    simp [validateInputs, hie, hgt, hdup]
  refine ⟨hmem, ?_, ?_⟩
  · have hres : (validateInputs projectName "custom" comps vfs).resolvedComponents
        = jsSetDedup comps := by
      simp [validateInputs, hie, hgt]
    rw [hres]
    exact jsSetDedup_length_eq comps
  · have hve : (validateInputs projectName "custom" comps vfs).valid =
        (validateInputs projectName "custom" comps vfs).errors.isEmpty := rfl
    rw [hve]
    cases hiev : (validateInputs projectName "custom" comps vfs).errors
    · rw [hiev] at hmem
      cases hmem
    · rfl

/-- Claim C8 (amended: for custom lists within the size bounds — a list
longer than 20 items fails on the count check before the duplicate scan
runs): a duplicate-bearing custom list is rejected with the duplicate
error while the resolved list keeps one entry per distinct item, and the
end-to-end `["button","button"]` run fails validation with an empty
trace — no external command runs — whatever the filesystem and command
environments are. -/
theorem duplicate_components_rejected :
    (∀ (projectName : String) (comps : List String) (vfs : ValidatorFs),
      comps ≠ [] → comps.length ≤ 20 → ¬ comps.Nodup →
      duplicateErrorMsg ∈
        (validateInputs projectName "custom" comps vfs).errors ∧
      (validateInputs projectName "custom" comps vfs).resolvedComponents.length
        = comps.dedup.length ∧
      (validateInputs projectName "custom" comps vfs).valid = false) ∧
    (∀ (vfs : ValidatorFs) (env : PipeEnv),
      (runMain "my-app" "custom" ["button", "button"] vfs env).exit = 1 ∧
      (runMain "my-app" "custom" ["button", "button"] vfs env).trace = [] ∧
      duplicateErrorMsg ∈
        (validateInputs "my-app" "custom" ["button", "button"] vfs).errors) := by
  refine ⟨validateInputs_custom_dup_core, ?_⟩
  intro vfs env
  obtain ⟨hmem, -, hvalid⟩ := validateInputs_custom_dup_core "my-app"
    ["button", "button"] vfs (by decide) (by decide) (by decide)
  have hrw : runMain "my-app" "custom" ["button", "button"] vfs env = ⟨1,
      createInitialState "my-app" "custom"
        (validateInputs "my-app" "custom" ["button", "button"] vfs).resolvedComponents,
      []⟩ := by
    simp [runMain, hvalid]
  exact ⟨by rw [hrw], by rw [hrw], hmem⟩

/-- Witness for `duplicate_components_rejected` on a concrete in-range
duplicate list. -/
theorem duplicate_components_rejected_witness :
    ((["card", "button", "card"] : List String) ≠ [] ∧
      (["card", "button", "card"] : List String).length ≤ 20 ∧
      ¬ (["card", "button", "card"] : List String).Nodup) ∧
    duplicateErrorMsg ∈
      (validateInputs "my-app" "custom" ["card", "button", "card"]
        vfsFresh).errors ∧
    (validateInputs "my-app" "custom" ["card", "button", "card"]
      vfsFresh).resolvedComponents.length =
      (["card", "button", "card"] : List String).dedup.length := by
  refine ⟨⟨by decide, by decide, by decide⟩, ?_⟩
  obtain ⟨h1, h2, -⟩ := duplicate_components_rejected.1 "my-app"
    ["card", "button", "card"] vfsFresh (by decide) (by decide) (by decide)
  exact ⟨h1, h2⟩

/-- Counterexample to claim C8 as stated over every duplicate-bearing
custom list: with 21 copies of one name, validation fails on the
too-many-components check before the duplicate scan runs, so no
duplicate-detected error is reported and the resolved list (empty) does
not have one entry per distinct item. -/
theorem duplicate_components_counterexample :
    ¬ dup21.Nodup ∧
    ¬ (duplicateErrorMsg ∈
        (validateInputs "my-app" "custom" dup21 vfsFresh).errors) ∧
    (validateInputs "my-app" "custom" dup21 vfsFresh).resolvedComponents.length
      ≠ dup21.dedup.length := by
  decide

/-- Witness for `exit_zero_iff_success`, exercising the
success-with-warnings case: the batch install fails, one component fails
individually, verification still passes, and the process exits 0 with
the checkpoint removed and a non-empty `failedComponents`. -/
theorem exit_zero_iff_success_witness :
    (validateInputs "my-app" "minimal" [] vfsFresh).valid = true ∧
    allStepsDone (runMain "my-app" "minimal" [] vfsFresh envWarn).state
      = true ∧
    (runMain "my-app" "minimal" [] vfsFresh envWarn).state.failedComponents
      = ["button"] ∧
    (runMain "my-app" "minimal" [] vfsFresh envWarn).exit = 0 ∧
    Event.removeCheckpoint ∈
      (runMain "my-app" "minimal" [] vfsFresh envWarn).trace := by
  have h0 : (runMain "my-app" "minimal" [] vfsFresh envWarn).exit = 0 :=
    ((exit_zero_iff_success.1 "my-app" "minimal" [] vfsFresh envWarn).1).mpr
      ⟨by decide, by decide⟩
  exact ⟨by decide, by decide, by decide, h0,
    ((exit_zero_iff_success.1 "my-app" "minimal" [] vfsFresh envWarn).2).mpr h0⟩
